import Mathlib

/-!
Shallow embedding of the branch/changelist/merge orchestration core of the
game-asset-db-postgres service (src/services/asset_service/app/main.py,
tasks.py, merge_worker.py).

Rows are records with the columns the embedded operations read or write;
tables are lists of rows; a unit of work is a function from the database
state to either an error (the transaction rolls back, the caller keeps the
old state) or a new state plus the returned resource.  Timestamps (SQL
NOW()) are a `now : Nat` parameter of each operation.  SQL NULL is `Option`;
the append-only `logs` column uses `COALESCE(logs, '')` in the source, so it
is embedded as a plain `String` with `""` for NULL.
-/

namespace GameAssetDb

/-- HTTPException from main.py: a status code plus a human-readable detail.
400 is InvalidArgument/InvalidState, 403 PermissionDenied, 404 NotFound,
409 FailedPrecondition. -/
structure ApiError where
  code : Nat
  detail : String
deriving Repr, DecidableEq

/-- A row of `branches` (columns read by create_branch_merge). -/
structure BranchRow where
  id : Nat
  projectId : Nat
deriving Repr, DecidableEq

/-- A row of `branch_merges` (columns in main.py's SELECT/UPDATE lists). -/
structure BranchMergeRow where
  id : Nat
  projectId : Nat
  sourceBranchId : Nat
  targetBranchId : Nat
  initiatedBy : Nat
  status : String
  conflictSummary : Option String
  notes : Option String
  completedAt : Option Nat
deriving Repr, DecidableEq

/-- A row of `merge_jobs`.  The jsonb `conflict_snapshot` column is not read
by any embedded control-flow decision and is omitted. -/
structure MergeJobRow where
  id : Nat
  branchMergeId : Nat
  jobType : String
  status : String
  submitGatePassed : Bool
  logs : String
  startedAt : Option Nat
  completedAt : Option Nat
deriving Repr, DecidableEq

/-- A row of `merge_conflicts` (columns read by the gate and the executor). -/
structure MergeConflictRow where
  id : Nat
  branchMergeId : Nat
  resolution : Option String
  resolvedAt : Option Nat
deriving Repr, DecidableEq

/-- A row of `changelists` (columns read by submit_changelist). -/
structure ChangelistRow where
  id : Nat
  projectId : Nat
  targetBranchId : Option Nat
  status : String
  submitterNotes : Option String
  submittedAt : Option Nat
deriving Repr, DecidableEq

/-- A row of `changelist_items`. -/
structure ChangelistItemRow where
  id : Nat
  changelistId : Nat
  assetVersionId : Nat
  action : String
  targetBranchId : Option Nat
  createdAt : Nat
deriving Repr, DecidableEq

/-- A row of `asset_locks`. -/
structure AssetLockRow where
  id : Nat
  assetId : Nat
  lockedBy : Nat
  workspaceId : Option Nat
  lockedAt : Nat
  expiresAt : Option Nat
  notes : Option String
deriving Repr, DecidableEq

/-- The durable entity store: one list per table touched by the embedded
operations, plus a counter supplying the ids the database generates. -/
structure Db where
  branches : List BranchRow
  branchMerges : List BranchMergeRow
  mergeJobs : List MergeJobRow
  mergeConflicts : List MergeConflictRow
  changelists : List ChangelistRow
  changelistItems : List ChangelistItemRow
  assetLocks : List AssetLockRow
  nextId : Nat
deriving Repr, DecidableEq

/-- MERGE_JOB_STATUSES (main.py line 64). -/
def MERGE_JOB_STATUSES : List String := ["queued", "running", "staged", "completed", "failed"]

/-- MERGE_JOB_TYPES (main.py line 65). -/
def MERGE_JOB_TYPES : List String := ["auto_integrate", "conflict_staging", "submit_gate"]

/-- Python `x or default` on an optional string: None and `""` are falsy. -/
def pyOr (o : Option String) (d : String) : String :=
  match o with
  | none => d
  | some s => if s = "" then d else s

/-- The audit line `_append_log` builds: an ISO-ish timestamp prefix plus the
message plus a newline (tasks.py line 43). -/
def logLine (now : Nat) (message : String) : String :=
  "[" ++ toString now ++ "Z] " ++ message ++ "\n"

/-- _enforce_submit_gate (main.py lines 233-290).  Returns `none` when the
gate check passes and `some e` for the HTTPException the source raises.
Note that the source's second query counts rows with
`submit_gate_passed IS TRUE AND status = 'completed'` without restricting
`job_type` (main.py lines 243-252). -/
def enforce_submit_gate (db : Db) (mergeId : Nat) : Option ApiError :=
  let gateJobs := db.mergeJobs.filter
    (fun j => j.branchMergeId == mergeId && j.jobType == "submit_gate")
  if gateJobs.length == 0 then
    none
  else
    let gatePasses := db.mergeJobs.filter
      (fun j => j.branchMergeId == mergeId && j.submitGatePassed && j.status == "completed")
    if gatePasses.length == 0 then
      some ⟨409, "Merge submit gate has not passed; ensure submit job completes successfully."⟩
    else
      let outstanding := db.mergeJobs.filter
        (fun j => j.branchMergeId == mergeId &&
          (j.status == "queued" || j.status == "running" || j.status == "staged"))
      if outstanding.length > 0 then
        some ⟨409, "Merge jobs are still running; wait for orchestration to finish before completing the merge."⟩
      else
        let unresolved := db.mergeConflicts.filter
          (fun c => c.branchMergeId == mergeId && c.resolvedAt == none)
        if unresolved.length > 0 then
          some ⟨409, "Unresolved merge conflicts remain; resolve or stage them before completing the merge."⟩
        else
          none

/-- The update payload of PATCH /branch-merges (schemas.py BranchMergeUpdate).
`conflictSummary` is embedded as an opaque string (the source JSON-encodes
dict/list payloads before storing). -/
structure BranchMergeUpdate where
  status : Option String
  conflictSummary : Option String
  notes : Option String
  completed : Option Bool
deriving Repr, DecidableEq

/-- update_branch_merge (main.py lines 1063-1121).  Builds the SET clauses,
runs the submit-gate check when the request sets status=merged or
completed=true, then applies the UPDATE; `completed_at = NOW()` is added for
a merged transition only when the `completed` field did not already supply a
completed_at clause. -/
def update_branch_merge (db : Db) (now : Nat) (mergeId : Nat) (p : BranchMergeUpdate) :
    Except ApiError (Db × BranchMergeRow) :=
  if p.status.isSome && !((["pending", "merged", "conflicted", "cancelled"] : List String).contains (p.status.getD "")) then
    .error ⟨400, "Invalid merge status"⟩
  else if p.status == none && p.conflictSummary == none && p.notes == none && p.completed == none then
    .error ⟨400, "No fields provided"⟩
  else
    let needsSubmitGate := p.status == some "merged" || p.completed == some true
    match (if needsSubmitGate then enforce_submit_gate db mergeId else none) with
    | some e => .error e
    | none =>
      match db.branchMerges.find? (fun m => m.id == mergeId) with
      | none => .error ⟨404, "Branch merge not found"⟩
      | some m =>
        let apply := fun (r : BranchMergeRow) =>
          { r with
            status := p.status.getD r.status
            conflictSummary := match p.conflictSummary with
              | some cs => some cs
              | none => r.conflictSummary
            notes := match p.notes with
              | some n => some n
              | none => r.notes
            completedAt := match p.completed with
              | some true => some now
              | some false => none
              | none => if p.status == some "merged" then some now else r.completedAt }
        .ok ({ db with branchMerges := db.branchMerges.map (fun r =>
                  if r.id == mergeId then apply r else r) },
             apply m)

/-- _append_log (tasks.py lines 34-44): append a timestamped line to the
job's logs. -/
def append_log (db : Db) (now : Nat) (jobId : Nat) (message : String) : Db :=
  { db with mergeJobs := db.mergeJobs.map (fun j =>
      if j.id == jobId then { j with logs := j.logs ++ logLine now message } else j) }

/-- _maybe_finalize_branch_merge (tasks.py lines 86-120): if the merge has at
least one job, every job is completed, and every submit_gate job has passed,
set the merge to merged with completed_at coalesced, unless cancelled. -/
def maybe_finalize_branch_merge (db : Db) (now : Nat) (branchMergeId : Nat) : Db :=
  let jobs := db.mergeJobs.filter (fun j => j.branchMergeId == branchMergeId)
  if jobs.isEmpty then
    db
  else
    let allCompleted := jobs.all (fun j => j.status == "completed")
    let submitGateOk := jobs.all (fun j => j.jobType != "submit_gate" || j.submitGatePassed)
    if allCompleted && submitGateOk then
      { db with branchMerges := db.branchMerges.map (fun m =>
          if m.id == branchMergeId && m.status != "cancelled" then
            { m with status := "merged", completedAt := some (m.completedAt.getD now) }
          else m) }
    else
      db

/-- _complete_job (tasks.py lines 47-68): set the job's terminal status with
coalesced started_at/completed_at (optionally writing submit_gate_passed),
then run the merge-completion reaction. -/
def complete_job (db : Db) (now : Nat) (jobId : Nat) (branchMergeId : Nat)
    (jobStatus : String) (submitGatePassed : Option Bool) : Db :=
  let db1 := { db with mergeJobs := db.mergeJobs.map (fun j =>
      if j.id == jobId then
        { j with
          status := jobStatus
          completedAt := some (j.completedAt.getD now)
          submitGatePassed := submitGatePassed.getD j.submitGatePassed
          startedAt := some (j.startedAt.getD now) }
      else j) }
  maybe_finalize_branch_merge db1 now branchMergeId

/-- _fail_job (tasks.py lines 71-83): log the reason, complete the job as
failed, then force the owning merge to conflicted unless cancelled. -/
def fail_job (db : Db) (now : Nat) (jobId : Nat) (branchMergeId : Nat) (reason : String) : Db :=
  let db1 := append_log db now jobId reason
  let db2 := complete_job db1 now jobId branchMergeId "failed" none
  { db2 with branchMerges := db2.branchMerges.map (fun m =>
      if m.id == branchMergeId && m.status != "cancelled" then
        { m with status := "conflicted" }
      else m) }

/-- The dict run_merge_job returns: skipped, or completed with the job type. -/
inductive RunOutcome where
  | skipped : RunOutcome
  | completed : String → RunOutcome
deriving Repr, DecidableEq

/-- The conditional queued-to-running transition of run_merge_job (tasks.py
lines 128-139): update every row with the given id whose status is exactly
queued, coalescing started_at. -/
def cas_queued_to_running (db : Db) (now : Nat) (jobId : Nat) : Db :=
  { db with mergeJobs := db.mergeJobs.map (fun j =>
      if j.id == jobId && j.status == "queued" then
        { j with status := "running", startedAt := some (j.startedAt.getD now) }
      else j) }

/-- The unresolved-conflict count the executor and the gate query:
SELECT COUNT(*) FROM merge_conflicts WHERE branch_merge_id = ... AND
resolved_at IS NULL. -/
def unresolved_conflict_count (db : Db) (branchMergeId : Nat) : Nat :=
  (db.mergeConflicts.filter
    (fun c => c.branchMergeId == branchMergeId && c.resolvedAt == none)).length

/-- Steps 2-3 of run_merge_job (tasks.py lines 150-178): branch on the job
type, starting from the post-CAS state `db1` and the pre-CAS row `j` (whose
id, branch_merge_id and job_type the RETURNING clause supplied). -/
def run_merge_job_body (db1 : Db) (now : Nat) (jobId : Nat) (j : MergeJobRow) : Db :=
  let branchMergeId := j.branchMergeId
  if j.jobType == "auto_integrate" then
    let db2 := append_log db1 now jobId "Executing automated integration pipeline"
    let unresolved := unresolved_conflict_count db2 branchMergeId
    if unresolved != 0 then
      fail_job db2 now jobId branchMergeId
        ("Detected " ++ toString unresolved ++ " unresolved conflicts during auto integrate")
    else
      let db3 := append_log db2 now jobId "Integration completed without conflicts"
      complete_job db3 now jobId branchMergeId "completed" none
  else if j.jobType == "submit_gate" then
    let db2 := append_log db1 now jobId "Running submit gate validation"
    complete_job db2 now jobId branchMergeId "completed" (some true)
  else
    let db2 := append_log db1 now jobId ("No-op handler for job type " ++ j.jobType ++ "; marking staged")
    complete_job db2 now jobId branchMergeId "completed" none

/-- run_merge_job (tasks.py lines 123-185) without fault injection: attempt
the queued-to-running transition; if no queued row matched, commit nothing
and return skipped; else handle the job type and commit. -/
def run_merge_job (db : Db) (now : Nat) (jobId : Nat) : Db × RunOutcome :=
  match db.mergeJobs.find? (fun j => j.id == jobId && j.status == "queued") with
  | none => (db, .skipped)
  | some j =>
    (run_merge_job_body (cas_queued_to_running db now jobId) now jobId j, .completed j.jobType)

/-- run_merge_job with an exception injected during steps 2-3 (`fault =
true`).  The source's handler (tasks.py lines 182-185) calls conn.rollback()
and re-raises: the connection pool runs with autocommit disabled
(database.py line 14), so the rollback restores the state at transaction
start — including the queued-to-running transition — and the exception
propagates to the caller, embedded as the `.error` outcome. -/
def run_merge_job_faulted (db : Db) (now : Nat) (jobId : Nat) (fault : Bool) :
    Db × Except String RunOutcome :=
  match db.mergeJobs.find? (fun j => j.id == jobId && j.status == "queued") with
  | none => (db, .ok .skipped)
  | some j =>
    if fault then
      (db, .error "job handler raised")
    else
      (run_merge_job_body (cas_queued_to_running db now jobId) now jobId j,
       .ok (.completed j.jobType))

/-- The body of POST /changelists/submit (schemas.py ChangelistSubmitRequest);
`status` defaults to "submitted" via Python `payload.status or "submitted"`. -/
structure ChangelistSubmitRequest where
  submitterNotes : Option String
  status : Option String
deriving Repr, DecidableEq

/-- submit_changelist (main.py lines 871-928): validate the desired status,
require the current status to be open/pending_review or already the desired
one, require a target branch and at least one item, then set status,
submitter_notes and submitted_at = NOW(). -/
def submit_changelist (db : Db) (now : Nat) (changelistId : Nat)
    (p : ChangelistSubmitRequest) : Except ApiError (Db × ChangelistRow) :=
  let desiredStatus := pyOr p.status "submitted"
  if desiredStatus != "submitted" && desiredStatus != "pending_review" then
    .error ⟨400, "Unsupported changelist status"⟩
  else
    match db.changelists.find? (fun c => c.id == changelistId) with
    | none => .error ⟨404, "Changelist not found"⟩
    | some cl =>
      if cl.status != "open" && cl.status != "pending_review" && cl.status != desiredStatus then
        .error ⟨400, "Changelist already finalized"⟩
      else if cl.targetBranchId == none then
        .error ⟨400, "Target branch is required before submit"⟩
      else if (db.changelistItems.filter (fun it => it.changelistId == changelistId)).length == 0 then
        .error ⟨400, "Changelist must include at least one asset version"⟩
      else
        let apply := fun (c : ChangelistRow) =>
          { c with status := desiredStatus, submitterNotes := p.submitterNotes, submittedAt := some now }
        .ok ({ db with changelists := db.changelists.map (fun c =>
                 if c.id == changelistId then apply c else c) },
             apply cl)

/-- The item upsert of add_changelist_item (main.py lines 784-800):
INSERT INTO changelist_items ... ON CONFLICT (changelist_id,
asset_version_id) DO UPDATE SET action, target_branch_id, created_at = NOW().
The surrounding validation (editable changelist, supported action, project
consistency) precedes this statement and is not embedded; the unique index
on (changelist_id, asset_version_id) that the ON CONFLICT clause targets is
schema DDL outside src and appears here as the conflict test. -/
def upsert_changelist_item (db : Db) (now : Nat) (newId : Nat)
    (changelistId assetVersionId : Nat) (action : String) (targetBranchId : Option Nat) : Db :=
  if db.changelistItems.any (fun it =>
      it.changelistId == changelistId && it.assetVersionId == assetVersionId) then
    { db with changelistItems := db.changelistItems.map (fun it =>
        if it.changelistId == changelistId && it.assetVersionId == assetVersionId then
          { it with action := action, targetBranchId := targetBranchId, createdAt := now }
        else it) }
  else
    { db with changelistItems := db.changelistItems ++
        [⟨newId, changelistId, assetVersionId, action, targetBranchId, now⟩] }

/-- Ascending insertion by created_at, used to embed ORDER BY created_at. -/
def insertByCreatedAt (it : ChangelistItemRow) :
    List ChangelistItemRow → List ChangelistItemRow
  | [] => [it]
  | x :: xs =>
    if x.createdAt ≤ it.createdAt then x :: insertByCreatedAt it xs else it :: x :: xs

/-- Sort a list of changelist items ascending by created_at. -/
def sortByCreatedAt (l : List ChangelistItemRow) : List ChangelistItemRow :=
  l.foldr insertByCreatedAt []

/-- The item query of _changelist_row_to_response (main.py lines 137-148):
SELECT ... FROM changelist_items WHERE changelist_id = ... ORDER BY
created_at. -/
def changelist_items_ordered (db : Db) (changelistId : Nat) : List ChangelistItemRow :=
  sortByCreatedAt (db.changelistItems.filter (fun it => it.changelistId == changelistId))

/-- Modelled from the spec: the flags auto_integrate, stage_conflicts and
requires_submit_gate, which main.py's create_branch_merge reads from the
payload but whose schema declaration is missing from src's schemas.py — per
the spec they select which MergeJobs are seeded.  The other fields are the
BranchMergeCreate fields present in schemas.py. -/
structure BranchMergeCreate where
  projectId : Nat
  sourceBranchId : Nat
  targetBranchId : Nat
  notes : Option String
  autoIntegrate : Bool
  stageConflicts : Bool
  requiresSubmitGate : Bool
deriving Repr, DecidableEq

/-- Modelled from the spec: the INSERT INTO merge_jobs (branch_merge_id,
job_type) of create_branch_merge names no status, submit_gate_passed or
logs column, so those come from table DDL defaults that are not under src;
the spec states such jobs are created queued, and submit_gate_passed is
meaningful only for submit_gate jobs, giving default false. -/
def newMergeJobRow (id branchMergeId : Nat) (jobType : String) (jobStatus : String) : MergeJobRow :=
  { id := id, branchMergeId := branchMergeId, jobType := jobType, status := jobStatus,
    submitGatePassed := false, logs := "", startedAt := none, completedAt := none }

/-- Insert a merge job with the next generated id. -/
def insertMergeJob (db : Db) (branchMergeId : Nat) (jobType : String) (jobStatus : String) : Db :=
  { db with
    mergeJobs := db.mergeJobs ++ [newMergeJobRow db.nextId branchMergeId jobType jobStatus],
    nextId := db.nextId + 1 }

/-- create_branch_merge (main.py lines 967-1060): validate branches distinct,
resolvable and project-consistent; insert the merge (status pending per the
spec-modelled DDL default); seed jobs per flags, collecting the ids of jobs
created queued (auto_integrate then submit_gate; the staged conflict_staging
job is never collected); on success those ids are handed to enqueue_many
after commit (merge_worker.py lines 16-27), returned here as the third
component. -/
def create_branch_merge (db : Db) (userId : Nat) (p : BranchMergeCreate) :
    Except ApiError (Db × BranchMergeRow × List Nat) :=
  if p.sourceBranchId == p.targetBranchId then
    .error ⟨400, "Source and target branches must differ"⟩
  else
    match db.branches.find? (fun b => b.id == p.sourceBranchId) with
    | none => .error ⟨404, "Source branch not found"⟩
    | some sourceBranch =>
      match db.branches.find? (fun b => b.id == p.targetBranchId) with
      | none => .error ⟨404, "Target branch not found"⟩
      | some targetBranch =>
        if sourceBranch.projectId != p.projectId || targetBranch.projectId != p.projectId then
          .error ⟨400, "Branches do not belong to project"⟩
        else
          let merge : BranchMergeRow :=
            { id := db.nextId, projectId := p.projectId,
              sourceBranchId := p.sourceBranchId, targetBranchId := p.targetBranchId,
              initiatedBy := userId, status := "pending",
              conflictSummary := none, notes := p.notes, completedAt := none }
          let db1 := { db with branchMerges := db.branchMerges ++ [merge], nextId := db.nextId + 1 }
          let s2 := if p.autoIntegrate then
              (insertMergeJob db1 merge.id "auto_integrate" "queued", [db1.nextId])
            else (db1, [])
          let db3 := if p.stageConflicts then
              insertMergeJob s2.1 merge.id "conflict_staging" "staged"
            else s2.1
          let s4 := if p.requiresSubmitGate then
              (insertMergeJob db3 merge.id "submit_gate" "queued", [db3.nextId])
            else (db3, [])
          .ok (s4.1, merge, s2.2 ++ s4.2)

/-- Modelled from the spec: the class MergeJobCreate (body of POST
/branch-merges/jobs) is missing from src's schemas.py; the fields are those
main.py's create_merge_job reads (job_type, optional status defaulting to
queued, submit_gate_passed, logs); conflict_snapshot is omitted like on the
row. -/
structure MergeJobCreate where
  jobType : String
  status : Option String
  submitGatePassed : Bool
  logs : Option String
deriving Repr, DecidableEq

/-- create_merge_job (main.py lines 1275-1338): validate type and status,
coalesce started_at/completed_at per the initial status, force
submit_gate_passed to false for non-submit_gate types, insert the job, and
(third component) enqueue the new id when it was created queued. -/
def create_merge_job (db : Db) (now : Nat) (mergeId : Nat) (p : MergeJobCreate) :
    Except ApiError (Db × MergeJobRow × Option Nat) :=
  if !(MERGE_JOB_TYPES.contains p.jobType) then
    .error ⟨400, "Unsupported merge job type"⟩
  else
    let jobStatus := pyOr p.status "queued"
    if !(MERGE_JOB_STATUSES.contains jobStatus) then
      .error ⟨400, "Unsupported merge job status"⟩
    else
      let startedAt := if jobStatus == "running" || jobStatus == "staged" ||
          jobStatus == "completed" || jobStatus == "failed" then some now else none
      let completedAt := if jobStatus == "completed" || jobStatus == "failed" then some now else none
      let submitGatePassed := if p.jobType == "submit_gate" then p.submitGatePassed else false
      match db.branchMerges.find? (fun m => m.id == mergeId) with
      | none => .error ⟨404, "Branch merge not found"⟩
      | some _ =>
        let job : MergeJobRow :=
          { id := db.nextId, branchMergeId := mergeId, jobType := p.jobType,
            status := jobStatus, submitGatePassed := submitGatePassed,
            logs := p.logs.getD "", startedAt := startedAt, completedAt := completedAt }
        .ok ({ db with mergeJobs := db.mergeJobs ++ [job], nextId := db.nextId + 1 },
             job,
             if jobStatus == "queued" then some job.id else none)

/-- Modelled from the spec: the class MergeJobUpdate (body of PATCH
/merge-jobs) is missing from src's schemas.py; the fields are those
main.py's update_merge_job reads (conflict_snapshot again omitted). -/
structure MergeJobUpdate where
  status : Option String
  submitGatePassed : Option Bool
  logs : Option String
deriving Repr, DecidableEq

/-- update_merge_job (main.py lines 1341-1410): validate the status, require
at least one field, reject submit_gate_passed=true on a non-submit_gate job,
then apply the SET clauses with started_at/completed_at coalescing driven by
the new status. -/
def update_merge_job (db : Db) (now : Nat) (jobId : Nat) (p : MergeJobUpdate) :
    Except ApiError (Db × MergeJobRow) :=
  if p.status.isSome && !(MERGE_JOB_STATUSES.contains (p.status.getD "")) then
    .error ⟨400, "Unsupported merge job status"⟩
  else if p.status == none && p.submitGatePassed == none && p.logs == none then
    .error ⟨400, "No fields provided"⟩
  else
    match db.mergeJobs.find? (fun j => j.id == jobId) with
    | none => .error ⟨404, "Merge job not found"⟩
    | some j0 =>
      if p.submitGatePassed == some true && j0.jobType != "submit_gate" then
        .error ⟨400, "Only submit gate jobs can be marked as passing the submit gate."⟩
      else
        let apply := fun (j : MergeJobRow) =>
          { j with
            status := p.status.getD j.status
            submitGatePassed := p.submitGatePassed.getD j.submitGatePassed
            logs := p.logs.getD j.logs
            startedAt := if (p.status == some "running" || p.status == some "staged")
                || (p.status == some "completed" || p.status == some "failed") then
                some (j.startedAt.getD now)
              else j.startedAt
            completedAt := if p.status == some "completed" || p.status == some "failed" then
                some now
              else j.completedAt }
        .ok ({ db with mergeJobs := db.mergeJobs.map (fun j =>
                 if j.id == jobId then apply j else j) },
             apply j0)

/-- The body of POST /locks (schemas.py LockRequest). -/
structure LockRequest where
  assetId : Nat
  workspaceId : Option Nat
  expiresAt : Option Nat
  notes : Option String
deriving Repr, DecidableEq

/-- create_lock (main.py lines 1819-1853): INSERT INTO asset_locks ... ON
CONFLICT (asset_id) DO UPDATE SET locked_by, workspace_id, expires_at,
notes, locked_at = NOW().  The unique constraint on asset_id targeted by the
ON CONFLICT clause is schema DDL outside src and appears here as the
conflict test; the caller becomes the owner whether or not a lock existed. -/
def create_lock (db : Db) (now : Nat) (userId : Nat) (p : LockRequest) : Db × AssetLockRow :=
  match db.assetLocks.find? (fun l => l.assetId == p.assetId) with
  | some l0 =>
    let apply := fun (l : AssetLockRow) =>
      { l with lockedBy := userId, workspaceId := p.workspaceId,
               expiresAt := p.expiresAt, notes := p.notes, lockedAt := now }
    ({ db with assetLocks := db.assetLocks.map (fun l =>
         if l.assetId == p.assetId then apply l else l) },
     apply l0)
  | none =>
    let row : AssetLockRow :=
      { id := db.nextId, assetId := p.assetId, lockedBy := userId,
        workspaceId := p.workspaceId, lockedAt := now, expiresAt := p.expiresAt, notes := p.notes }
    ({ db with assetLocks := db.assetLocks ++ [row], nextId := db.nextId + 1 }, row)

/-- release_lock (main.py lines 1856-1877): DELETE the caller's own lock on
the asset; if nothing was deleted, a non-admin gets PermissionDenied and an
admin deletes any remaining lock on the asset. -/
def release_lock (db : Db) (userId : Nat) (role : String) (assetId : Nat) :
    Except ApiError Db :=
  let ownedCount := (db.assetLocks.filter (fun l =>
    l.assetId == assetId && l.lockedBy == userId)).length
  let db1 := { db with assetLocks := db.assetLocks.filter (fun l =>
    !(l.assetId == assetId && l.lockedBy == userId)) }
  if ownedCount == 0 && role != "admin" then
    .error ⟨403, "Cannot release lock you do not own"⟩
  else if ownedCount == 0 && role == "admin" then
    .ok { db1 with assetLocks := db1.assetLocks.filter (fun l => !(l.assetId == assetId)) }
  else
    .ok db1

/-! Generic list lemmas about the row-update shapes SQL UPDATE statements
take in this embedding (map with an id guard), and about find?/filter. -/

theorem find?_map_upd {α : Type} (idq : α → Bool) (g : α → α)
    (hg : ∀ a, idq (g a) = idq a) (l : List α) :
    (l.map (fun a => if idq a then g a else a)).find? idq = (l.find? idq).map g := by
  induction l with
  | nil => rfl
  | cons x xs ih =>
    by_cases hx : idq x = true
    · rw [List.map_cons, List.find?_cons_of_pos _ (by simp [hx, hg x]),
        List.find?_cons_of_pos _ hx]
      simp [hx]
    · rw [List.map_cons, List.find?_cons_of_neg _ (by simp [hx]),
        List.find?_cons_of_neg _ hx]
      exact ih

theorem find?_map_if {α : Type} (idq c : α → Bool) (g : α → α)
    (hg : ∀ a, idq (g a) = idq a) (l : List α) :
    (l.map (fun a => if idq a && c a then g a else a)).find? idq
      = (l.find? idq).map (fun a => if c a then g a else a) := by
  induction l with
  | nil => rfl
  | cons x xs ih =>
    by_cases hx : idq x = true
    · have h1 : idq (if idq x && c x then g x else x) = true := by
        by_cases hc : c x = true <;> simp [hx, hc, hg x]
      rw [List.map_cons, List.find?_cons_of_pos _ h1, List.find?_cons_of_pos _ hx]
      by_cases hc : c x = true <;> simp [hx, hc]
    · have h1 : ¬ idq (if idq x && c x then g x else x) = true := by
        simp [hx]
      rw [List.map_cons, List.find?_cons_of_neg _ h1, List.find?_cons_of_neg _ hx]
      exact ih

theorem find?_and_of_find? {α : Type} (idq c : α → Bool) (l : List α) (j : α)
    (h : l.find? idq = some j) (hc : c j = true) :
    l.find? (fun a => idq a && c a) = some j := by
  induction l with
  | nil => simp at h
  | cons x xs ih =>
    by_cases hx : idq x = true
    · rw [List.find?_cons_of_pos _ hx] at h
      obtain rfl : x = j := by simpa using h
      rw [List.find?_cons_of_pos]
      simp [hx, hc]
    · rw [List.find?_cons_of_neg _ hx] at h
      rw [List.find?_cons_of_neg _ (by simp [hx])]
      exact ih h

theorem filter_map_comm {α : Type} (p : α → Bool) (g : α → α)
    (hg : ∀ a, p (g a) = p a) (l : List α) :
    (l.map g).filter p = (l.filter p).map g := by
  induction l with
  | nil => rfl
  | cons x xs ih =>
    by_cases hx : p x = true
    · simp only [List.map_cons, List.filter_cons]
      rw [hg x, hx]
      simp [ih]
    · simp only [List.map_cons, List.filter_cons]
      rw [hg x]
      simp only [Bool.not_eq_true] at hx
      simp [hx, ih]

theorem map_field_eq {α : Type} {β : Type} (g : α → α) (fld : α → β)
    (hg : ∀ a, fld (g a) = fld a) (l : List α) :
    (l.map g).map fld = l.map fld := by
  rw [List.map_map]
  exact List.map_congr_left (fun a _ => hg a)

/-! Effect of the executor's primitive writes on a row located by id, and
frame lemmas for the tables they leave alone. -/

theorem append_log_find (db : Db) (now jobId : Nat) (msg : String) :
    (append_log db now jobId msg).mergeJobs.find? (fun r => r.id == jobId)
      = (db.mergeJobs.find? (fun r => r.id == jobId)).map
          (fun j => { j with logs := j.logs ++ logLine now msg }) := by
  unfold append_log
  exact find?_map_upd (fun r => r.id == jobId)
    (fun j => { j with logs := j.logs ++ logLine now msg }) (fun _ => rfl) db.mergeJobs

theorem cas_find (db : Db) (now jobId : Nat) :
    (cas_queued_to_running db now jobId).mergeJobs.find? (fun r => r.id == jobId)
      = (db.mergeJobs.find? (fun r => r.id == jobId)).map
          (fun j => if j.status == "queued" then
              { j with status := "running", startedAt := some (j.startedAt.getD now) }
            else j) := by
  unfold cas_queued_to_running
  exact find?_map_if (fun r => r.id == jobId) (fun r => r.status == "queued")
    (fun j => { j with status := "running", startedAt := some (j.startedAt.getD now) })
    (fun _ => rfl) db.mergeJobs

theorem finalize_mergeJobs_eq (db : Db) (now branchMergeId : Nat) :
    (maybe_finalize_branch_merge db now branchMergeId).mergeJobs = db.mergeJobs := by
  simp only [maybe_finalize_branch_merge]
  split <;> [rfl; (split <;> rfl)]

theorem finalize_mergeConflicts_eq (db : Db) (now branchMergeId : Nat) :
    (maybe_finalize_branch_merge db now branchMergeId).mergeConflicts = db.mergeConflicts := by
  simp only [maybe_finalize_branch_merge]
  split <;> [rfl; (split <;> rfl)]

theorem complete_job_find (db : Db) (now jobId branchMergeId : Nat) (st : String)
    (sgp : Option Bool) :
    (complete_job db now jobId branchMergeId st sgp).mergeJobs.find? (fun r => r.id == jobId)
      = (db.mergeJobs.find? (fun r => r.id == jobId)).map
          (fun j => { j with status := st,
                             completedAt := some (j.completedAt.getD now),
                             submitGatePassed := sgp.getD j.submitGatePassed,
                             startedAt := some (j.startedAt.getD now) }) := by
  unfold complete_job
  rw [finalize_mergeJobs_eq]
  exact find?_map_upd (fun r => r.id == jobId)
    (fun j => { j with status := st,
                       completedAt := some (j.completedAt.getD now),
                       submitGatePassed := sgp.getD j.submitGatePassed,
                       startedAt := some (j.startedAt.getD now) })
    (fun _ => rfl) db.mergeJobs

/-- C5: a merge job whose row status is anything but queued is skipped by the
executor, which then changes no entity state; the queued-to-running
transition applies only when the status is exactly queued.  `hnq` states
that every merge_jobs row carrying this primary-key id (there is one, by
`hrow`) has a status other than queued. -/
theorem run_merge_job_skips_non_queued (db : Db) (now jobId : Nat)
    (hrow : ∃ j ∈ db.mergeJobs, j.id = jobId)
    (hnq : ∀ j ∈ db.mergeJobs, j.id = jobId → j.status ≠ "queued") :
    run_merge_job db now jobId = (db, RunOutcome.skipped) := by
  obtain ⟨j0, _, _⟩ := hrow
  have h : db.mergeJobs.find? (fun j => j.id == jobId && j.status == "queued") = none := by
    rw [List.find?_eq_none]
    intro j hj
    simp only [Bool.and_eq_true, beq_iff_eq, not_and]
    intro h1 h2
    exact hnq j hj h1 h2
  simp [run_merge_job, h]

/-- C5 witness: a concrete completed job is skipped and the state is kept. -/
theorem run_merge_job_skips_non_queued_witness :
    run_merge_job
      { branches := [], branchMerges := [⟨2, 10, 3, 4, 1, "pending", none, none, none⟩],
        mergeJobs := [⟨1, 2, "submit_gate", "completed", true, "", some 0, some 1⟩],
        mergeConflicts := [], changelists := [], changelistItems := [],
        assetLocks := [], nextId := 50 } 5 1
      = ({ branches := [], branchMerges := [⟨2, 10, 3, 4, 1, "pending", none, none, none⟩],
           mergeJobs := [⟨1, 2, "submit_gate", "completed", true, "", some 0, some 1⟩],
           mergeConflicts := [], changelists := [], changelistItems := [],
           assetLocks := [], nextId := 50 }, RunOutcome.skipped) := by
  apply run_merge_job_skips_non_queued
  · exact ⟨⟨1, 2, "submit_gate", "completed", true, "", some 0, some 1⟩, by simp, rfl⟩
  · intro j hj h1
    simp only [List.mem_singleton] at hj
    subst hj
    decide

/-- C7 counterexample: with a single queued auto_integrate job, a fault
during the handler rolls the whole unit of work back and the job row is left
in status queued — not running, as the claim states. -/
theorem run_fault_cex :
    (run_merge_job_faulted
      { branches := [], branchMerges := [⟨2, 10, 3, 4, 1, "pending", none, none, none⟩],
        mergeJobs := [⟨1, 2, "auto_integrate", "queued", false, "", none, none⟩],
        mergeConflicts := [], changelists := [], changelistItems := [],
        assetLocks := [], nextId := 50 } 5 1 true).2 = Except.error "job handler raised"
    ∧ ((run_merge_job_faulted
      { branches := [], branchMerges := [⟨2, 10, 3, 4, 1, "pending", none, none, none⟩],
        mergeJobs := [⟨1, 2, "auto_integrate", "queued", false, "", none, none⟩],
        mergeConflicts := [], changelists := [], changelistItems := [],
        assetLocks := [], nextId := 50 } 5 1 true).1.mergeJobs.map (fun j => j.status))
      = ["queued"] := by
  exact ⟨rfl, by decide⟩

/-- C7 (amended): an exception while handling the job type or reacting to
completion aborts the whole unit of work — every write of the run, the
queued-to-running transition included, is rolled back — the exception
propagates to the caller, and the job is left in its pre-run status queued
(not running). -/
theorem run_fault_rolls_back (db : Db) (now jobId : Nat) (j : MergeJobRow)
    (h : db.mergeJobs.find? (fun r => r.id == jobId && r.status == "queued") = some j) :
    run_merge_job_faulted db now jobId true = (db, Except.error "job handler raised") := by
  simp [run_merge_job_faulted, h]

/-- C7 witness: the amended behavior at a concrete queued job. -/
theorem run_fault_rolls_back_witness :
    run_merge_job_faulted
      { branches := [], branchMerges := [],
        mergeJobs := [⟨1, 2, "submit_gate", "queued", false, "", none, none⟩],
        mergeConflicts := [], changelists := [], changelistItems := [],
        assetLocks := [], nextId := 9 } 5 1 true
      = ({ branches := [], branchMerges := [],
           mergeJobs := [⟨1, 2, "submit_gate", "queued", false, "", none, none⟩],
           mergeConflicts := [], changelists := [], changelistItems := [],
           assetLocks := [], nextId := 9 }, Except.error "job handler raised") := by
  exact run_fault_rolls_back _ 5 1 ⟨1, 2, "submit_gate", "queued", false, "", none, none⟩ (by decide)

theorem finalize_merged (db : Db) (now branchMergeId : Nat) (m : BranchMergeRow)
    (hne : db.mergeJobs.filter (fun j => j.branchMergeId == branchMergeId) ≠ [])
    (hall : ∀ j ∈ db.mergeJobs.filter (fun j => j.branchMergeId == branchMergeId),
      j.status = "completed")
    (hgate : ∀ j ∈ db.mergeJobs.filter (fun j => j.branchMergeId == branchMergeId),
      j.jobType = "submit_gate" → j.submitGatePassed = true)
    (hm : db.branchMerges.find? (fun r => r.id == branchMergeId) = some m)
    (hnc : m.status ≠ "cancelled") :
    (maybe_finalize_branch_merge db now branchMergeId).branchMerges.find?
        (fun r => r.id == branchMergeId)
      = some { m with status := "merged", completedAt := some (m.completedAt.getD now) } := by
  have hempty : (db.mergeJobs.filter (fun j => j.branchMergeId == branchMergeId)).isEmpty = false := by
    rw [Bool.eq_false_iff]
    intro h
    exact hne (List.isEmpty_iff.mp h)
  have hallb : (db.mergeJobs.filter (fun j => j.branchMergeId == branchMergeId)).all
      (fun j => j.status == "completed") = true := by
    rw [List.all_eq_true]
    intro j hj
    simpa using hall j hj
  have hgateb : (db.mergeJobs.filter (fun j => j.branchMergeId == branchMergeId)).all
      (fun j => j.jobType != "submit_gate" || j.submitGatePassed) = true := by
    rw [List.all_eq_true]
    intro j hj
    by_cases hty : j.jobType = "submit_gate"
    · simp [hty, hgate j hj hty]
    · simp [hty]
  simp only [maybe_finalize_branch_merge, hempty, hallb, hgateb, Bool.false_eq_true,
    if_false, Bool.and_self, if_true]
  refine (find?_map_if (fun r => r.id == branchMergeId) (fun r => r.status != "cancelled")
    (fun r => { r with status := "merged", completedAt := some (r.completedAt.getD now) })
    (fun _ => rfl) db.branchMerges).trans ?_
  rw [hm]
  simp [hnc]

theorem finalize_keeps_cancelled (db : Db) (now branchMergeId : Nat) (m : BranchMergeRow)
    (hm : db.branchMerges.find? (fun r => r.id == branchMergeId) = some m)
    (hc : m.status = "cancelled") :
    (maybe_finalize_branch_merge db now branchMergeId).branchMerges.find?
        (fun r => r.id == branchMergeId) = some m := by
  simp only [maybe_finalize_branch_merge]
  split
  · exact hm
  · split
    · refine (find?_map_if (fun r => r.id == branchMergeId) (fun r => r.status != "cancelled")
        (fun r => { r with status := "merged", completedAt := some (r.completedAt.getD now) })
        (fun _ => rfl) db.branchMerges).trans ?_
      rw [hm]
      simp [hc]
    · exact hm

/-- C2: every executor job state change goes through complete_job (failure
included, with status failed), which runs the completion reaction: if the
merge has at least one job and afterwards every job is completed and every
submit_gate job has passed, the merge auto-transitions to merged with
completed_at set if not already set; the transition is suppressed when the
merge is cancelled. -/
theorem complete_job_reaction (db : Db) (now jobId branchMergeId : Nat) (st : String)
    (sgp : Option Bool) (m : BranchMergeRow)
    (hm : db.branchMerges.find? (fun r => r.id == branchMergeId) = some m) :
    (((complete_job db now jobId branchMergeId st sgp).mergeJobs.filter
          (fun j => j.branchMergeId == branchMergeId) ≠ []
        ∧ (∀ j ∈ (complete_job db now jobId branchMergeId st sgp).mergeJobs.filter
            (fun j => j.branchMergeId == branchMergeId), j.status = "completed")
        ∧ (∀ j ∈ (complete_job db now jobId branchMergeId st sgp).mergeJobs.filter
            (fun j => j.branchMergeId == branchMergeId),
            j.jobType = "submit_gate" → j.submitGatePassed = true)
        ∧ m.status ≠ "cancelled") →
      (complete_job db now jobId branchMergeId st sgp).branchMerges.find?
          (fun r => r.id == branchMergeId)
        = some { m with status := "merged", completedAt := some (m.completedAt.getD now) })
    ∧ (m.status = "cancelled" →
      (complete_job db now jobId branchMergeId st sgp).branchMerges.find?
          (fun r => r.id == branchMergeId) = some m) := by
  constructor
  · rintro ⟨h1, h2, h3, h4⟩
    unfold complete_job at h1 h2 h3 ⊢
    rw [finalize_mergeJobs_eq] at h1 h2 h3
    exact finalize_merged _ now branchMergeId m h1 h2 h3 hm h4
  · intro hc
    unfold complete_job
    exact finalize_keeps_cancelled _ now branchMergeId m hm hc

/-- Concrete state for the C2 witness: one pending merge with a single
submit_gate job. -/
def c2Db : Db :=
  { branches := [], branchMerges := [⟨2, 10, 3, 4, 1, "pending", none, none, none⟩],
    mergeJobs := [⟨1, 2, "submit_gate", "running", false, "", some 0, none⟩],
    mergeConflicts := [], changelists := [], changelistItems := [],
    assetLocks := [], nextId := 50 }

/-- C2 witness: completing the submit_gate job with submit_gate_passed=true
auto-transitions the concrete merge to merged with completed_at set. -/
theorem complete_job_reaction_witness :
    (complete_job c2Db 5 1 2 "completed" (some true)).branchMerges.find?
        (fun r => r.id == 2)
      = some { id := 2, projectId := 10, sourceBranchId := 3, targetBranchId := 4,
               initiatedBy := 1, status := "merged", conflictSummary := none,
               notes := none, completedAt := some 5 } := by
  exact (complete_job_reaction c2Db 5 1 2 "completed" (some true)
    ⟨2, 10, 3, 4, 1, "pending", none, none, none⟩ (by decide)).1
    ⟨by decide, by decide, by decide, by decide⟩

theorem finalize_noop_of_not_completed (db : Db) (now branchMergeId : Nat)
    (hex : ∃ r ∈ db.mergeJobs, r.branchMergeId = branchMergeId ∧ r.status ≠ "completed") :
    maybe_finalize_branch_merge db now branchMergeId = db := by
  obtain ⟨r, hr, hbm, hst⟩ := hex
  have hallf : (db.mergeJobs.filter (fun jb => jb.branchMergeId == branchMergeId)).all
      (fun jb => jb.status == "completed") = false := by
    rw [List.all_eq_false]
    exact ⟨r, List.mem_filter_of_mem hr (by simp [hbm]), by simp [hst]⟩
  simp [maybe_finalize_branch_merge, hallf]

theorem complete_job_branchMerges_of_failed (db : Db) (now jobId branchMergeId : Nat)
    (sgp : Option Bool)
    (hex : ∃ r ∈ db.mergeJobs, r.id = jobId ∧ r.branchMergeId = branchMergeId) :
    (complete_job db now jobId branchMergeId "failed" sgp).branchMerges = db.branchMerges := by
  obtain ⟨r, hr, hid, hbm⟩ := hex
  unfold complete_job
  refine (congrArg Db.branchMerges
    (finalize_noop_of_not_completed _ now branchMergeId ?_)).trans rfl
  refine ⟨_, List.mem_map_of_mem _ hr, ?_, ?_⟩
  · simp [hid, hbm]
  · simp [hid]

/-- C4: an auto_integrate job run from queued fails and forces the merge to
conflicted (unless the merge is cancelled) when unresolved conflicts exist,
appending the audit lines; with zero unresolved conflicts it completes the
job with a success line.  `hfound`/`hq` say the merge_jobs row for this id
is queued, `hm` locates the owning merge. -/
theorem run_merge_job_auto_integrate (db : Db) (now jobId : Nat) (j : MergeJobRow)
    (m : BranchMergeRow)
    (hfound : db.mergeJobs.find? (fun r => r.id == jobId) = some j)
    (hq : j.status = "queued") (hty : j.jobType = "auto_integrate")
    (hm : db.branchMerges.find? (fun r => r.id == j.branchMergeId) = some m) :
    (0 < unresolved_conflict_count db j.branchMergeId →
      (((run_merge_job db now jobId).1.mergeJobs.find? (fun r => r.id == jobId)).map
          (fun r => (r.status, r.logs))
        = some ("failed",
            j.logs ++ logLine now "Executing automated integration pipeline"
              ++ logLine now ("Detected " ++ toString (unresolved_conflict_count db j.branchMergeId)
                  ++ " unresolved conflicts during auto integrate")))
      ∧ (m.status ≠ "cancelled" →
          (run_merge_job db now jobId).1.branchMerges.find? (fun r => r.id == j.branchMergeId)
            = some { m with status := "conflicted" })
      ∧ (m.status = "cancelled" →
          (run_merge_job db now jobId).1.branchMerges.find? (fun r => r.id == j.branchMergeId)
            = some m))
    ∧ (unresolved_conflict_count db j.branchMergeId = 0 →
      ((run_merge_job db now jobId).1.mergeJobs.find? (fun r => r.id == jobId)).map
          (fun r => (r.status, r.logs))
        = some ("completed",
            j.logs ++ logLine now "Executing automated integration pipeline"
              ++ logLine now "Integration completed without conflicts")) := by
  have hjid : (j.id == jobId) = true := by simpa using List.find?_some hfound
  have hidj : j.id = jobId := by simpa using hjid
  have hjmem : j ∈ db.mergeJobs := List.mem_of_find?_eq_some hfound
  have hcas : db.mergeJobs.find? (fun r => r.id == jobId && r.status == "queued") = some j :=
    find?_and_of_find? _ _ _ _ hfound (by simp [hq])
  have hrun : run_merge_job db now jobId
      = (run_merge_job_body (cas_queued_to_running db now jobId) now jobId j,
         RunOutcome.completed j.jobType) := by
    simp [run_merge_job, hcas]
  constructor
  · intro hpos
    have hcnt : (unresolved_conflict_count db j.branchMergeId != 0) = true := by
      simp only [bne_iff_ne, ne_eq]
      omega
    have hbody : run_merge_job_body (cas_queued_to_running db now jobId) now jobId j
        = fail_job (append_log (cas_queued_to_running db now jobId) now jobId
              "Executing automated integration pipeline") now jobId j.branchMergeId
            ("Detected " ++ toString (unresolved_conflict_count db j.branchMergeId)
              ++ " unresolved conflicts during auto integrate") := by
      have hcnt2 : (unresolved_conflict_count (append_log (cas_queued_to_running db now jobId)
          now jobId "Executing automated integration pipeline") j.branchMergeId != 0) = true := hcnt
      simp only [run_merge_job_body, hty]
      rw [if_pos (by simp)]
      rw [if_pos hcnt2]
      rfl
    refine ⟨?_, ?_, ?_⟩
    · rw [hrun, hbody]
      simp only [fail_job]
      rw [complete_job_find, append_log_find, append_log_find, cas_find, hfound]
      simp [hq]
    all_goals {
      have hdb4 : (complete_job (append_log (append_log (cas_queued_to_running db now jobId)
            now jobId "Executing automated integration pipeline") now jobId
            ("Detected " ++ toString (unresolved_conflict_count db j.branchMergeId)
              ++ " unresolved conflicts during auto integrate"))
            now jobId j.branchMergeId "failed" none).branchMerges = db.branchMerges := by
        refine complete_job_branchMerges_of_failed _ now jobId j.branchMergeId none
          ⟨_, List.mem_map_of_mem _ (List.mem_map_of_mem _ (List.mem_map_of_mem _ hjmem)),
            ?_, ?_⟩ <;> simp [hjid, hq, hidj]
      intro hcanc
      rw [hrun, hbody]
      simp only [fail_job]
      rw [hdb4]
      refine (find?_map_if (fun r => r.id == j.branchMergeId) (fun r => r.status != "cancelled")
        (fun r => { r with status := "conflicted" }) (fun _ => rfl) db.branchMerges).trans ?_
      rw [hm]
      simp [hcanc]
    }
  · intro hzero
    have hcnt : (unresolved_conflict_count db j.branchMergeId != 0) = false := by
      simp [hzero]
    have hbody : run_merge_job_body (cas_queued_to_running db now jobId) now jobId j
        = complete_job (append_log (append_log (cas_queued_to_running db now jobId) now jobId
              "Executing automated integration pipeline") now jobId
              "Integration completed without conflicts") now jobId j.branchMergeId
            "completed" none := by
      have hcnt2 : (unresolved_conflict_count (append_log (cas_queued_to_running db now jobId)
          now jobId "Executing automated integration pipeline") j.branchMergeId != 0) = false := hcnt
      simp only [run_merge_job_body, hty]
      rw [if_pos (by simp)]
      rw [if_neg (by simp [hcnt2])]
    rw [hrun, hbody]
    rw [complete_job_find, append_log_find, append_log_find, cas_find, hfound]
    simp [hq]

/-- Concrete state for the C4 witness: one pending merge with a queued
auto_integrate job and one unresolved conflict. -/
def c4Db : Db :=
  { branches := [], branchMerges := [⟨2, 10, 3, 4, 1, "pending", none, none, none⟩],
    mergeJobs := [⟨1, 2, "auto_integrate", "queued", false, "", none, none⟩],
    mergeConflicts := [⟨6, 2, none, none⟩],
    changelists := [], changelistItems := [], assetLocks := [], nextId := 50 }

/-- C4 witness: running the concrete auto_integrate job with one unresolved
conflict fails the job and sets the merge conflicted. -/
theorem run_merge_job_auto_integrate_witness :
    ((run_merge_job c4Db 5 1).1.mergeJobs.find? (fun r => r.id == 1)).map
        (fun r => (r.status, r.logs))
      = some ("failed",
          logLine 5 "Executing automated integration pipeline"
            ++ logLine 5 "Detected 1 unresolved conflicts during auto integrate")
    ∧ (run_merge_job c4Db 5 1).1.branchMerges.find? (fun r => r.id == 2)
      = some ⟨2, 10, 3, 4, 1, "conflicted", none, none, none⟩ := by
  have h := run_merge_job_auto_integrate c4Db 5 1
    ⟨1, 2, "auto_integrate", "queued", false, "", none, none⟩
    ⟨2, 10, 3, 4, 1, "pending", none, none, none⟩
    (by decide) rfl rfl (by decide)
  have h1 := (h.1 (by decide)).1
  have h2 := (h.1 (by decide)).2.1 (by decide)
  exact ⟨by simpa using h1, by simpa using h2⟩

/-- The invariant that submit_gate_passed is only ever true on submit_gate
jobs (enforced by create_merge_job, update_merge_job and the executor). -/
def sgp_only_on_gate_jobs (db : Db) : Prop :=
  ∀ j ∈ db.mergeJobs, j.submitGatePassed = true → j.jobType = "submit_gate"

/-- The merge has at least one submit_gate-type job. -/
def has_submit_gate_job (db : Db) (mergeId : Nat) : Prop :=
  ∃ j ∈ db.mergeJobs, j.branchMergeId = mergeId ∧ j.jobType = "submit_gate"

/-- Stated from the claim (spec side of the refinement): at least one
submit_gate job completed with submit_gate_passed=true, no job of the merge
queued/running/staged, and no merge conflict with resolved_at null. -/
def spec_submit_gate_satisfied (db : Db) (mergeId : Nat) : Prop :=
  (∃ j ∈ db.mergeJobs, j.branchMergeId = mergeId ∧ j.jobType = "submit_gate"
    ∧ j.status = "completed" ∧ j.submitGatePassed = true)
  ∧ (∀ j ∈ db.mergeJobs, j.branchMergeId = mergeId →
      j.status ≠ "queued" ∧ j.status ≠ "running" ∧ j.status ≠ "staged")
  ∧ (∀ c ∈ db.mergeConflicts, c.branchMergeId = mergeId → c.resolvedAt ≠ none)

theorem enforce_none_of_no_gate (db : Db) (mergeId : Nat)
    (h : ¬ has_submit_gate_job db mergeId) :
    enforce_submit_gate db mergeId = none := by
  have hfil : db.mergeJobs.filter
      (fun j => j.branchMergeId == mergeId && j.jobType == "submit_gate") = [] := by
    rw [List.filter_eq_nil_iff]
    intro j hj hp
    simp only [Bool.and_eq_true, beq_iff_eq] at hp
    exact h ⟨j, hj, hp.1, hp.2⟩
  unfold enforce_submit_gate
  rw [if_pos (by simp [hfil])]

theorem enforce_some_code (db : Db) (mergeId : Nat) (e : ApiError)
    (h : enforce_submit_gate db mergeId = some e) : e.code = 409 := by
  simp only [enforce_submit_gate] at h
  split at h
  · exact absurd h (by simp)
  · split at h
    · cases h; rfl
    · split at h
      · cases h; rfl
      · split at h
        · cases h; rfl
        · exact absurd h (by simp)

theorem enforce_none_iff (db : Db) (mergeId : Nat)
    (hinv : sgp_only_on_gate_jobs db)
    (hgate : has_submit_gate_job db mergeId) :
    enforce_submit_gate db mergeId = none ↔ spec_submit_gate_satisfied db mergeId := by
  obtain ⟨j0, hj0, hbm0, hty0⟩ := hgate
  have hg0 : ((db.mergeJobs.filter
      (fun j => j.branchMergeId == mergeId && j.jobType == "submit_gate")).length == 0) = false := by
    have hmem : j0 ∈ db.mergeJobs.filter
        (fun j => j.branchMergeId == mergeId && j.jobType == "submit_gate") :=
      List.mem_filter_of_mem hj0 (by simp [hbm0, hty0])
    rw [beq_eq_false_iff_ne, Ne, List.length_eq_zero]
    exact List.ne_nil_of_mem hmem
  unfold enforce_submit_gate
  rw [if_neg (by simp [hg0])]
  constructor
  · intro h
    by_cases hA : ((db.mergeJobs.filter (fun j =>
        j.branchMergeId == mergeId && j.submitGatePassed && j.status == "completed")).length == 0) = true
    · rw [if_pos hA] at h
      exact absurd h (by simp)
    · rw [if_neg hA] at h
      by_cases hB : 0 < (db.mergeJobs.filter (fun j => j.branchMergeId == mergeId &&
          (j.status == "queued" || j.status == "running" || j.status == "staged"))).length
      · rw [if_pos hB] at h
        exact absurd h (by simp)
      · rw [if_neg hB] at h
        by_cases hC : 0 < (db.mergeConflicts.filter
            (fun c => c.branchMergeId == mergeId && c.resolvedAt == none)).length
        · rw [if_pos hC] at h
          exact absurd h (by simp)
        · refine ⟨?_, ?_, ?_⟩
          · have hne : db.mergeJobs.filter (fun j =>
                j.branchMergeId == mergeId && j.submitGatePassed && j.status == "completed") ≠ [] := by
              intro hnil
              exact hA (by simp [hnil])
            obtain ⟨j, hjf⟩ := List.exists_mem_of_ne_nil _ hne
            have hjl := List.mem_of_mem_filter hjf
            have hjp := List.of_mem_filter hjf
            simp only [Bool.and_eq_true, beq_iff_eq] at hjp
            exact ⟨j, hjl, hjp.1.1, hinv j hjl hjp.1.2, hjp.2, hjp.1.2⟩
          · intro j hj hbm
            have hfil : db.mergeJobs.filter (fun j => j.branchMergeId == mergeId &&
                (j.status == "queued" || j.status == "running" || j.status == "staged")) = [] := by
              rw [← List.length_eq_zero]
              omega
            rw [List.filter_eq_nil_iff] at hfil
            have := hfil j hj
            simp only [hbm, Bool.and_eq_true, Bool.or_eq_true, beq_iff_eq, beq_self_eq_true,
              true_and, not_or] at this
            exact ⟨this.1.1, this.1.2, this.2⟩
          · intro c hc hbm
            have hfil : db.mergeConflicts.filter
                (fun c => c.branchMergeId == mergeId && c.resolvedAt == none) = [] := by
              rw [← List.length_eq_zero]
              omega
            rw [List.filter_eq_nil_iff] at hfil
            have := hfil c hc
            simp only [hbm, Bool.and_eq_true, beq_iff_eq, beq_self_eq_true, true_and] at this
            simpa using this
  · rintro ⟨⟨j1, hj1, hbm1, _, hst1, hsgp1⟩, houts, hconf⟩
    have hA : ((db.mergeJobs.filter (fun j =>
        j.branchMergeId == mergeId && j.submitGatePassed && j.status == "completed")).length == 0) = false := by
      have hmem : j1 ∈ db.mergeJobs.filter (fun j =>
          j.branchMergeId == mergeId && j.submitGatePassed && j.status == "completed") :=
        List.mem_filter_of_mem hj1 (by simp [hbm1, hsgp1, hst1])
      rw [beq_eq_false_iff_ne, Ne, List.length_eq_zero]
      exact List.ne_nil_of_mem hmem
    have hB : ¬ 0 < (db.mergeJobs.filter (fun j => j.branchMergeId == mergeId &&
        (j.status == "queued" || j.status == "running" || j.status == "staged"))).length := by
      have hfil : db.mergeJobs.filter (fun j => j.branchMergeId == mergeId &&
          (j.status == "queued" || j.status == "running" || j.status == "staged")) = [] := by
        rw [List.filter_eq_nil_iff]
        intro j hj hp
        simp only [Bool.and_eq_true, Bool.or_eq_true, beq_iff_eq] at hp
        exact absurd hp.2 (by
          have := houts j hj hp.1
          simp [this.1, this.2.1, this.2.2])
      simp [hfil]
    have hC : ¬ 0 < (db.mergeConflicts.filter
        (fun c => c.branchMergeId == mergeId && c.resolvedAt == none)).length := by
      have hfil : db.mergeConflicts.filter
          (fun c => c.branchMergeId == mergeId && c.resolvedAt == none) = [] := by
        rw [List.filter_eq_nil_iff]
        intro c hc hp
        simp only [Bool.and_eq_true, beq_iff_eq] at hp
        exact hconf c hc hp.1 (by simpa using hp.2)
      simp [hfil]
    rw [if_neg (by simp [hA]), if_neg hB, if_neg hC]

instance sgp_only_on_gate_jobs.instDecidable (db : Db) :
    Decidable (sgp_only_on_gate_jobs db) := by
  unfold sgp_only_on_gate_jobs
  infer_instance

instance has_submit_gate_job.instDecidable (db : Db) (mergeId : Nat) :
    Decidable (has_submit_gate_job db mergeId) := by
  unfold has_submit_gate_job
  infer_instance

instance spec_submit_gate_satisfied.instDecidable (db : Db) (mergeId : Nat) :
    Decidable (spec_submit_gate_satisfied db mergeId) := by
  unfold spec_submit_gate_satisfied
  infer_instance

/-- C1: an update that sets status=merged or completed=true on a merge that
has at least one submit_gate job succeeds when the three gate conditions of
the claim hold and is rejected with a 409 FailedPrecondition otherwise (the
rejection returns no new state: the transaction rolls back and the merge
record is unchanged); with no submit_gate job the check trivially passes and
the update proceeds.  `hinv` is the submit_gate_passed invariant maintained
by every operation (see the C9 theorem), under which the source's untyped
gate-passes query agrees with the claim's submit_gate-typed condition. -/
theorem update_branch_merge_submit_gate (db : Db) (now mergeId : Nat)
    (p : BranchMergeUpdate) (m : BranchMergeRow)
    (hinv : sgp_only_on_gate_jobs db)
    (hm : db.branchMerges.find? (fun r => r.id == mergeId) = some m)
    (hreq : p.status = some "merged" ∨ p.completed = some true)
    (hvalid : ∀ st, p.status = some st →
      st ∈ (["pending", "merged", "conflicted", "cancelled"] : List String)) :
    (has_submit_gate_job db mergeId →
      (spec_submit_gate_satisfied db mergeId →
        (update_branch_merge db now mergeId p).isOk = true)
      ∧ (¬ spec_submit_gate_satisfied db mergeId →
        ∃ e, update_branch_merge db now mergeId p = .error e ∧ e.code = 409))
    ∧ (¬ has_submit_gate_job db mergeId →
      (update_branch_merge db now mergeId p).isOk = true) := by
  have hguard1 : (p.status.isSome && !((["pending", "merged", "conflicted", "cancelled"] :
      List String).contains (p.status.getD ""))) = false := by
    cases hps : p.status with
    | none => simp
    | some st =>
      have hst := hvalid st hps
      simp only [List.mem_cons, List.not_mem_nil, or_false] at hst
      rcases hst with rfl | rfl | rfl | rfl <;> simp [hps]
  have hguard2 : (p.status == none && p.conflictSummary == none && p.notes == none
      && p.completed == none) = false := by
    rcases hreq with h | h <;> simp [h]
  have hneeds : (p.status == some "merged" || p.completed == some true) = true := by
    rcases hreq with h | h <;> simp [h]
  constructor
  · intro hgate
    constructor
    · intro hsat
      have hnone : enforce_submit_gate db mergeId = none :=
        (enforce_none_iff db mergeId hinv hgate).mpr hsat
      simp only [update_branch_merge]
      rw [if_neg (by rw [hguard1]; simp), if_neg (by rw [hguard2]; simp), if_pos hneeds, hnone, hm]
      rfl
    · intro hnsat
      obtain ⟨e, he⟩ : ∃ e, enforce_submit_gate db mergeId = some e := by
        cases henf : enforce_submit_gate db mergeId with
        | none => exact absurd ((enforce_none_iff db mergeId hinv hgate).mp henf) hnsat
        | some e => exact ⟨e, rfl⟩
      refine ⟨e, ?_, enforce_some_code db mergeId e he⟩
      simp only [update_branch_merge]
      rw [if_neg (by rw [hguard1]; simp), if_neg (by rw [hguard2]; simp), if_pos hneeds, he]
  · intro hnogate
    have hnone : enforce_submit_gate db mergeId = none := enforce_none_of_no_gate db mergeId hnogate
    simp only [update_branch_merge]
    rw [if_neg (by rw [hguard1]; simp), if_neg (by rw [hguard2]; simp), if_pos hneeds, hnone, hm]
    rfl

/-- Concrete state for the C1 witness: a merge whose submit_gate job has
completed and passed, with no outstanding jobs and no unresolved conflict,
and a second merge with a still-queued gate job. -/
def c1Db : Db :=
  { branches := [], branchMerges := [⟨2, 10, 3, 4, 1, "pending", none, none, none⟩,
      ⟨7, 10, 3, 4, 1, "pending", none, none, none⟩],
    mergeJobs := [⟨1, 2, "submit_gate", "completed", true, "", some 0, some 1⟩,
      ⟨8, 7, "submit_gate", "queued", false, "", none, none⟩],
    mergeConflicts := [], changelists := [], changelistItems := [],
    assetLocks := [], nextId := 50 }

/-- C1 witness: at the concrete state, completing merge 2 succeeds while
completing merge 7 (gate job still queued) is rejected with a 409. -/
theorem update_branch_merge_submit_gate_witness :
    (update_branch_merge c1Db 5 2 ⟨some "merged", none, none, none⟩).isOk = true
    ∧ (∃ e, update_branch_merge c1Db 5 7 ⟨some "merged", none, none, none⟩ = .error e
        ∧ e.code = 409) := by
  constructor
  · exact (update_branch_merge_submit_gate c1Db 5 2 ⟨some "merged", none, none, none⟩
      ⟨2, 10, 3, 4, 1, "pending", none, none, none⟩
      (by decide) (by decide) (Or.inl rfl) (by intro st hst; cases hst; decide)).1
      (by decide) |>.1 (by decide)
  · exact (update_branch_merge_submit_gate c1Db 5 7 ⟨some "merged", none, none, none⟩
      ⟨7, 10, 3, 4, 1, "pending", none, none, none⟩
      (by decide) (by decide) (Or.inl rfl) (by intro st hst; cases hst; decide)).1
      (by decide) |>.2 (by decide)

/-- Concrete state for the C3 counterexample and witness: changelist 1 is
already submitted, changelist 2 is open; both have a target branch and one
item. -/
def c3Db : Db :=
  { branches := [], branchMerges := [], mergeJobs := [], mergeConflicts := [],
    changelists := [⟨1, 10, some 2, "submitted", none, none⟩,
      ⟨2, 10, some 2, "open", none, none⟩],
    changelistItems := [⟨5, 1, 7, "edit", none, 3⟩, ⟨6, 2, 7, "edit", none, 3⟩],
    assetLocks := [], nextId := 50 }

/-- C3 counterexample: changelist 1 has status submitted — not in
{open, pending_review} — yet submitting it again (desired status defaults to
submitted) succeeds, refuting the claim's "succeeds only if status is in
{open, pending_review}". -/
theorem submit_changelist_cex :
    c3Db.changelists.find? (fun c => c.id == 1)
      = some ⟨1, 10, some 2, "submitted", none, none⟩
    ∧ ¬("submitted" = "open" ∨ "submitted" = "pending_review")
    ∧ (submit_changelist c3Db 9 1 ⟨none, none⟩).isOk = true := by
  exact ⟨by decide, by decide, rfl⟩

/-- C3 (amended): Submit succeeds iff the current status is open,
pending_review or already equal to the desired status, the target branch is
set, and at least one item exists; a forbidding status fails with the 400
InvalidState error "Changelist already finalized", an unset target branch or
zero items with the matching 400 InvalidArgument error; success writes the
desired status, submitted_at = now and the submitter notes. -/
theorem submit_changelist_characterization (db : Db) (now changelistId : Nat)
    (p : ChangelistSubmitRequest) (cl : ChangelistRow)
    (hcl : db.changelists.find? (fun c => c.id == changelistId) = some cl)
    (hd : pyOr p.status "submitted" = "submitted"
      ∨ pyOr p.status "submitted" = "pending_review") :
    ((submit_changelist db now changelistId p).isOk = true
      ↔ ((cl.status = "open" ∨ cl.status = "pending_review"
            ∨ cl.status = pyOr p.status "submitted")
          ∧ cl.targetBranchId ≠ none
          ∧ 0 < (db.changelistItems.filter (fun it => it.changelistId == changelistId)).length))
    ∧ (¬(cl.status = "open" ∨ cl.status = "pending_review"
          ∨ cl.status = pyOr p.status "submitted") →
        submit_changelist db now changelistId p
          = .error ⟨400, "Changelist already finalized"⟩)
    ∧ ((cl.status = "open" ∨ cl.status = "pending_review"
          ∨ cl.status = pyOr p.status "submitted") →
        cl.targetBranchId = none →
        submit_changelist db now changelistId p
          = .error ⟨400, "Target branch is required before submit"⟩)
    ∧ ((cl.status = "open" ∨ cl.status = "pending_review"
          ∨ cl.status = pyOr p.status "submitted") →
        cl.targetBranchId ≠ none →
        (db.changelistItems.filter (fun it => it.changelistId == changelistId)).length = 0 →
        submit_changelist db now changelistId p
          = .error ⟨400, "Changelist must include at least one asset version"⟩)
    ∧ (∀ db' c', submit_changelist db now changelistId p = .ok (db', c') →
        c'.status = pyOr p.status "submitted" ∧ c'.submittedAt = some now
          ∧ c'.submitterNotes = p.submitterNotes) := by
  have hd' : (pyOr p.status "submitted" != "submitted"
      && pyOr p.status "submitted" != "pending_review") = false := by
    rcases hd with h | h <;> simp [h]
  have heval : submit_changelist db now changelistId p
      = (if (cl.status != "open" && cl.status != "pending_review"
            && cl.status != pyOr p.status "submitted") = true then
          .error ⟨400, "Changelist already finalized"⟩
        else if (cl.targetBranchId == none) = true then
          .error ⟨400, "Target branch is required before submit"⟩
        else if ((db.changelistItems.filter
            (fun it => it.changelistId == changelistId)).length == 0) = true then
          .error ⟨400, "Changelist must include at least one asset version"⟩
        else
          .ok ({ db with changelists := db.changelists.map (fun c =>
                  if c.id == changelistId then
                    { c with status := pyOr p.status "submitted",
                             submitterNotes := p.submitterNotes, submittedAt := some now }
                  else c) },
               { cl with status := pyOr p.status "submitted",
                         submitterNotes := p.submitterNotes, submittedAt := some now })) := by
    simp only [submit_changelist]
    rw [if_neg (by rw [hd']; simp), hcl]
  refine ⟨?_, ?_, ?_, ?_, ?_⟩
  · constructor
    · intro hok
      by_cases h1 : cl.status = "open" ∨ cl.status = "pending_review"
          ∨ cl.status = pyOr p.status "submitted"
      · have hb1 : (cl.status != "open" && cl.status != "pending_review"
            && cl.status != pyOr p.status "submitted") = false := by
          rcases h1 with h | h | h <;> simp [h]
        by_cases h2 : cl.targetBranchId = none
        · rw [heval, if_neg (by rw [hb1]; simp), if_pos (by simp [h2])] at hok
          exact absurd hok (by simp [Except.isOk, Except.toBool])
        · by_cases h3 : (db.changelistItems.filter
              (fun it => it.changelistId == changelistId)).length = 0
          · rw [heval, if_neg (by rw [hb1]; simp), if_neg (by simp [h2]),
              if_pos (by simp [h3])] at hok
            exact absurd hok (by simp [Except.isOk, Except.toBool])
          · exact ⟨h1, h2, Nat.pos_of_ne_zero h3⟩
      · have hb1 : (cl.status != "open" && cl.status != "pending_review"
            && cl.status != pyOr p.status "submitted") = true := by
          push_neg at h1
          simp [h1.1, h1.2.1, h1.2.2]
        rw [heval, if_pos hb1] at hok
        exact absurd hok (by simp [Except.isOk, Except.toBool])
    · rintro ⟨h1, h2, h3⟩
      have hb1 : (cl.status != "open" && cl.status != "pending_review"
          && cl.status != pyOr p.status "submitted") = false := by
        rcases h1 with h | h | h <;> simp [h]
      rw [heval, if_neg (by rw [hb1]; simp), if_neg (by simp [h2]),
        if_neg (by simp [Nat.pos_iff_ne_zero.mp h3])]
      rfl
  · intro h1
    push_neg at h1
    have hb1 : (cl.status != "open" && cl.status != "pending_review"
        && cl.status != pyOr p.status "submitted") = true := by
      simp [h1.1, h1.2.1, h1.2.2]
    rw [heval, if_pos hb1]
  · intro h1 h2
    have hb1 : (cl.status != "open" && cl.status != "pending_review"
        && cl.status != pyOr p.status "submitted") = false := by
      rcases h1 with h | h | h <;> simp [h]
    rw [heval, if_neg (by rw [hb1]; simp), if_pos (by simp [h2])]
  · intro h1 h2 h3
    have hb1 : (cl.status != "open" && cl.status != "pending_review"
        && cl.status != pyOr p.status "submitted") = false := by
      rcases h1 with h | h | h <;> simp [h]
    rw [heval, if_neg (by rw [hb1]; simp), if_neg (by simp [h2]), if_pos (by simp [h3])]
  · intro db' c' hok
    rw [heval] at hok
    split at hok
    · exact absurd hok (by simp)
    · split at hok
      · exact absurd hok (by simp)
      · split at hok
        · exact absurd hok (by simp)
        · cases hok
          exact ⟨rfl, rfl, rfl⟩

/-- C3 witness: the amended characterization at the concrete open changelist
2 of c3Db (submission succeeds) and at the submitted changelist 1 with the
status-forbidding hypothesis refuted, so the success branch applies. -/
theorem submit_changelist_characterization_witness :
    (submit_changelist c3Db 9 2 ⟨none, none⟩).isOk = true := by
  exact (submit_changelist_characterization c3Db 9 2 ⟨none, none⟩
    ⟨2, 10, some 2, "open", none, none⟩ (by decide) (Or.inl rfl)).1.mpr
    ⟨Or.inl rfl, by decide, by decide⟩

/-- C6: a successful branch-merge Create inserts the merge with status
pending and, in the same unit of work, exactly the flagged jobs —
auto_integrate queued, conflict_staging staged, submit_gate queued — and the
ids handed to the dispatcher after commit are exactly those of the newly
created jobs whose status is queued (never the staged conflict_staging
job). -/
theorem create_branch_merge_seeds_jobs (db : Db) (userId : Nat) (p : BranchMergeCreate)
    (sb tb : BranchRow)
    (hne : p.sourceBranchId ≠ p.targetBranchId)
    (hs : db.branches.find? (fun b => b.id == p.sourceBranchId) = some sb)
    (ht : db.branches.find? (fun b => b.id == p.targetBranchId) = some tb)
    (hsp : sb.projectId = p.projectId) (htp : tb.projectId = p.projectId) :
    (create_branch_merge db userId p).isOk = true
    ∧ ∀ db' merge queuedIds,
      create_branch_merge db userId p = .ok (db', merge, queuedIds) →
      merge.status = "pending"
      ∧ db'.branchMerges = db.branchMerges ++ [merge]
      ∧ db'.mergeJobs = db.mergeJobs
          ++ (if p.autoIntegrate then
                [newMergeJobRow (db.nextId + 1) merge.id "auto_integrate" "queued"] else [])
          ++ (if p.stageConflicts then
                [newMergeJobRow (db.nextId + 1 + (if p.autoIntegrate then 1 else 0))
                  merge.id "conflict_staging" "staged"] else [])
          ++ (if p.requiresSubmitGate then
                [newMergeJobRow (db.nextId + 1 + (if p.autoIntegrate then 1 else 0)
                    + (if p.stageConflicts then 1 else 0))
                  merge.id "submit_gate" "queued"] else [])
      ∧ queuedIds = ((db'.mergeJobs.drop db.mergeJobs.length).filter
          (fun jb => jb.status == "queued")).map (fun jb => jb.id) := by
  have hbne : (p.sourceBranchId == p.targetBranchId) = false := by simp [hne]
  cases hA : p.autoIntegrate <;> cases hS : p.stageConflicts <;>
    cases hG : p.requiresSubmitGate <;>
    · refine ⟨?_, ?_⟩
      · simp only [create_branch_merge, hA, hS, hG]
        rw [if_neg (by rw [hbne]; simp), hs, ht]
        dsimp only
        rw [if_neg (by simp [hsp, htp])]
        rfl
      · intro db' merge queuedIds hok
        simp only [create_branch_merge, hA, hS, hG] at hok
        rw [if_neg (by rw [hbne]; simp), hs, ht] at hok
        dsimp only at hok
        rw [if_neg (by simp [hsp, htp])] at hok
        simp only [insertMergeJob, newMergeJobRow, Except.ok.injEq, Prod.mk.injEq] at hok
        obtain ⟨rfl, rfl, rfl⟩ := hok
        refine ⟨rfl, rfl, ?_, ?_⟩
        · simp [insertMergeJob, newMergeJobRow]
        · simp [insertMergeJob, newMergeJobRow, List.drop_left, List.append_assoc]

/-- Concrete state for the C6 witness: two branches of project 10. -/
def c6Db : Db :=
  { branches := [⟨3, 10⟩, ⟨4, 10⟩], branchMerges := [], mergeJobs := [],
    mergeConflicts := [], changelists := [], changelistItems := [],
    assetLocks := [], nextId := 20 }

/-- C6 witness: creating a merge with all three flags at the concrete state
succeeds, and the extraction clause applies to the computed result. -/
theorem create_branch_merge_seeds_jobs_witness :
    (create_branch_merge c6Db 1 ⟨10, 3, 4, none, true, true, true⟩).isOk = true := by
  exact (create_branch_merge_seeds_jobs c6Db 1 ⟨10, 3, 4, none, true, true, true⟩
    ⟨3, 10⟩ ⟨4, 10⟩ (by decide) (by decide) (by decide) rfl rfl).1

theorem release_lock_eval_zero_nonadmin (dbx : Db) (userId : Nat) (role : String)
    (assetId : Nat)
    (h : dbx.assetLocks.filter (fun l => l.assetId == assetId && l.lockedBy == userId) = [])
    (hrole : role ≠ "admin") :
    release_lock dbx userId role assetId
      = .error ⟨403, "Cannot release lock you do not own"⟩ := by
  simp only [release_lock]
  rw [h]
  rw [if_pos (by simp [hrole])]

theorem release_lock_eval_nonzero (dbx : Db) (userId : Nat) (role : String) (assetId : Nat)
    (h : (dbx.assetLocks.filter
      (fun l => l.assetId == assetId && l.lockedBy == userId)).length ≠ 0) :
    release_lock dbx userId role assetId
      = .ok { dbx with assetLocks := dbx.assetLocks.filter (fun l =>
          !(l.assetId == assetId && l.lockedBy == userId)) } := by
  have hb : ((dbx.assetLocks.filter
      (fun l => l.assetId == assetId && l.lockedBy == userId)).length == 0) = false := by
    rw [beq_eq_false_iff_ne]
    exact h
  simp only [release_lock]
  rw [if_neg (by rw [hb]; simp), if_neg (by rw [hb]; simp)]

theorem release_lock_eval_zero_admin (dbx : Db) (userId : Nat) (assetId : Nat)
    (h : dbx.assetLocks.filter (fun l => l.assetId == assetId && l.lockedBy == userId) = []) :
    release_lock dbx userId "admin" assetId
      = .ok { dbx with assetLocks := (dbx.assetLocks.filter (fun l =>
          !(l.assetId == assetId && l.lockedBy == userId))).filter (fun l =>
            !(l.assetId == assetId)) } := by
  simp only [release_lock]
  rw [h]
  rw [if_neg (by simp), if_pos (by simp)]

/-- C8: re-locking an asset already locked by u1 as u2 overwrites owner,
workspace, expiry, notes and locked_at (last-writer-wins) while keeping at
most one lock row per asset; afterwards a release attempt by the previous
owner u1 with a non-admin role fails with 403 PermissionDenied (the
transaction rolls back, the lock remains), while the current owner u2 — or
u1 acting with the admin role — releases it, leaving no lock row for the
asset. -/
theorem asset_lock_last_writer_wins (db : Db) (now u1 u2 : Nat) (p : LockRequest)
    (l0 : AssetLockRow) (role1 : String)
    (hone : ∀ a, (db.assetLocks.filter (fun l => l.assetId == a)).length ≤ 1)
    (hl0 : db.assetLocks.find? (fun l => l.assetId == p.assetId) = some l0)
    (hown : l0.lockedBy = u1) (hne : u1 ≠ u2) (hrole1 : role1 ≠ "admin") :
    (create_lock db now u2 p).2
      = { l0 with lockedBy := u2, workspaceId := p.workspaceId,
                  expiresAt := p.expiresAt, notes := p.notes, lockedAt := now }
    ∧ (create_lock db now u2 p).1.assetLocks.find? (fun l => l.assetId == p.assetId)
      = some { l0 with lockedBy := u2, workspaceId := p.workspaceId,
                       expiresAt := p.expiresAt, notes := p.notes, lockedAt := now }
    ∧ (∀ a, ((create_lock db now u2 p).1.assetLocks.filter
        (fun l => l.assetId == a)).length ≤ 1)
    ∧ release_lock (create_lock db now u2 p).1 u1 role1 p.assetId
      = .error ⟨403, "Cannot release lock you do not own"⟩
    ∧ ((release_lock (create_lock db now u2 p).1 u2 role1 p.assetId).isOk = true
        ∧ ∀ db2, release_lock (create_lock db now u2 p).1 u2 role1 p.assetId = .ok db2 →
            db2.assetLocks.filter (fun l => l.assetId == p.assetId) = [])
    ∧ ((release_lock (create_lock db now u2 p).1 u1 "admin" p.assetId).isOk = true
        ∧ ∀ db3, release_lock (create_lock db now u2 p).1 u1 "admin" p.assetId = .ok db3 →
            db3.assetLocks.filter (fun l => l.assetId == p.assetId) = []) := by
  have hne' : u2 ≠ u1 := Ne.symm hne
  have hl0aid : l0.assetId = p.assetId := by simpa using List.find?_some hl0
  have hl0mem : l0 ∈ db.assetLocks := List.mem_of_find?_eq_some hl0
  have hcre : create_lock db now u2 p
      = ({ db with assetLocks := db.assetLocks.map (fun l =>
            if l.assetId == p.assetId then
              { l with lockedBy := u2, workspaceId := p.workspaceId,
                       expiresAt := p.expiresAt, notes := p.notes, lockedAt := now }
            else l) },
         { l0 with lockedBy := u2, workspaceId := p.workspaceId,
                   expiresAt := p.expiresAt, notes := p.notes, lockedAt := now }) := by
    simp only [create_lock, hl0]
  have hzero1 : (db.assetLocks.map (fun l =>
      if l.assetId == p.assetId then
        { l with lockedBy := u2, workspaceId := p.workspaceId,
                 expiresAt := p.expiresAt, notes := p.notes, lockedAt := now }
      else l)).filter (fun l => l.assetId == p.assetId && l.lockedBy == u1) = [] := by
    rw [List.filter_eq_nil_iff]
    intro l hl
    obtain ⟨x, hx, rfl⟩ := List.mem_map.mp hl
    by_cases hxa : x.assetId = p.assetId
    · simp [hxa, hne']
    · simp [hxa]
  refine ⟨by rw [hcre], ?_, ?_, ?_, ?_, ?_⟩
  · rw [hcre]
    refine (find?_map_upd (fun l => l.assetId == p.assetId)
      (fun l => { l with lockedBy := u2, workspaceId := p.workspaceId,
                         expiresAt := p.expiresAt, notes := p.notes, lockedAt := now })
      (fun _ => rfl) db.assetLocks).trans ?_
    rw [hl0]
    rfl
  · intro a
    rw [hcre]
    refine le_trans (le_of_eq (congrArg List.length
      (filter_map_comm (fun l => l.assetId == a)
        (fun l => if l.assetId == p.assetId then
            { l with lockedBy := u2, workspaceId := p.workspaceId,
                     expiresAt := p.expiresAt, notes := p.notes, lockedAt := now }
          else l)
        (fun x => by by_cases hxa : x.assetId = p.assetId <;> simp [hxa]) db.assetLocks))) ?_
    rw [List.length_map]
    exact hone a
  · rw [hcre]
    rw [release_lock_eval_zero_nonadmin]
    · exact hzero1
    · exact hrole1
  · rw [hcre]
    have hmem2 : (if l0.assetId == p.assetId then
        { l0 with lockedBy := u2, workspaceId := p.workspaceId,
                  expiresAt := p.expiresAt, notes := p.notes, lockedAt := now }
      else l0) ∈ db.assetLocks.map (fun l =>
        if l.assetId == p.assetId then
          { l with lockedBy := u2, workspaceId := p.workspaceId,
                   expiresAt := p.expiresAt, notes := p.notes, lockedAt := now }
        else l) := List.mem_map_of_mem _ hl0mem
    have hnz : ((db.assetLocks.map (fun l =>
        if l.assetId == p.assetId then
          { l with lockedBy := u2, workspaceId := p.workspaceId,
                   expiresAt := p.expiresAt, notes := p.notes, lockedAt := now }
        else l)).filter
          (fun l => l.assetId == p.assetId && l.lockedBy == u2)).length ≠ 0 := by

      have hf : (if l0.assetId == p.assetId then
          { l0 with lockedBy := u2, workspaceId := p.workspaceId,
                    expiresAt := p.expiresAt, notes := p.notes, lockedAt := now }
        else l0) ∈ (db.assetLocks.map (fun l =>
          if l.assetId == p.assetId then
            { l with lockedBy := u2, workspaceId := p.workspaceId,
                     expiresAt := p.expiresAt, notes := p.notes, lockedAt := now }
          else l)).filter (fun l => l.assetId == p.assetId && l.lockedBy == u2) :=
        List.mem_filter_of_mem hmem2 (by simp [hl0aid])
      intro hlen
      rw [List.length_eq_zero] at hlen
      rw [hlen] at hf
      exact absurd hf (List.not_mem_nil _)
    refine ⟨?_, ?_⟩
    · rw [release_lock_eval_nonzero]
      · rfl
      · exact hnz
    · intro db2 hrel
      rw [release_lock_eval_nonzero _ _ _ _ hnz] at hrel
      cases hrel
      rw [List.filter_eq_nil_iff]
      intro y hy hya
      have hy1 := List.mem_of_mem_filter hy
      have hy2 := List.of_mem_filter hy
      obtain ⟨x, hx, rfl⟩ := List.mem_map.mp hy1
      by_cases hxa : x.assetId = p.assetId
      · simp [hxa] at hy2
      · simp [hxa] at hya
  · rw [hcre]
    refine ⟨?_, ?_⟩
    · rw [release_lock_eval_zero_admin _ _ _ hzero1]
      rfl
    · intro db3 hrel
      rw [release_lock_eval_zero_admin _ _ _ hzero1] at hrel
      cases hrel
      rw [List.filter_eq_nil_iff]
      intro y hy hya
      have hy2 := List.of_mem_filter hy
      simp only [Bool.not_eq_true', beq_eq_false_iff_ne] at hy2
      exact absurd (by simpa using hya) hy2

/-- Concrete state for the C8 witness: asset 7 locked by user 1. -/
def c8Db : Db :=
  { branches := [], branchMerges := [], mergeJobs := [], mergeConflicts := [],
    changelists := [], changelistItems := [],
    assetLocks := [⟨11, 7, 1, none, 0, none, none⟩], nextId := 30 }

/-- C8 witness: user 2 steals the concrete lock; user 1 (role user) cannot
release it; user 2 can. -/
theorem asset_lock_last_writer_wins_witness :
    (create_lock c8Db 5 2 ⟨7, none, none, none⟩).2
      = ⟨11, 7, 2, none, 5, none, none⟩
    ∧ release_lock (create_lock c8Db 5 2 ⟨7, none, none, none⟩).1 1 "user" 7
      = .error ⟨403, "Cannot release lock you do not own"⟩
    ∧ (release_lock (create_lock c8Db 5 2 ⟨7, none, none, none⟩).1 2 "user" 7).isOk = true := by
  have h := asset_lock_last_writer_wins c8Db 5 1 2 ⟨7, none, none, none⟩
    ⟨11, 7, 1, none, 0, none, none⟩ "user"
    (by intro a; exact List.length_filter_le _ _) (by decide) rfl (by decide) (by decide)
  exact ⟨h.1, h.2.2.2.1, h.2.2.2.2.1.1⟩

theorem complete_job_mergeJobs (db : Db) (now jobId branchMergeId : Nat) (st : String)
    (sgp : Option Bool) :
    (complete_job db now jobId branchMergeId st sgp).mergeJobs
      = db.mergeJobs.map (fun j => if j.id == jobId then
          { j with status := st, completedAt := some (j.completedAt.getD now),
                   submitGatePassed := sgp.getD j.submitGatePassed,
                   startedAt := some (j.startedAt.getD now) }
        else j) := by
  unfold complete_job
  rw [finalize_mergeJobs_eq]

theorem sgp_inv_append_log (db : Db) (now jobId : Nat) (msg : String)
    (h : sgp_only_on_gate_jobs db) :
    sgp_only_on_gate_jobs (append_log db now jobId msg) := by
  intro j hj hsgp
  simp only [append_log, List.mem_map] at hj
  obtain ⟨x, hx, rfl⟩ := hj
  by_cases hc : (x.id == jobId) = true <;> simp [hc] at hsgp ⊢ <;> exact h x hx hsgp

theorem sgp_inv_cas (db : Db) (now jobId : Nat)
    (h : sgp_only_on_gate_jobs db) :
    sgp_only_on_gate_jobs (cas_queued_to_running db now jobId) := by
  intro j hj hsgp
  simp only [cas_queued_to_running, List.mem_map] at hj
  obtain ⟨x, hx, rfl⟩ := hj
  by_cases hc : (x.id == jobId && x.status == "queued") = true <;>
    simp [hc] at hsgp ⊢ <;> exact h x hx hsgp

theorem sgp_inv_complete (db : Db) (now jobId branchMergeId : Nat) (st : String)
    (sgp : Option Bool)
    (hty : sgp = some true → ∀ r ∈ db.mergeJobs, r.id = jobId → r.jobType = "submit_gate")
    (h : sgp_only_on_gate_jobs db) :
    sgp_only_on_gate_jobs (complete_job db now jobId branchMergeId st sgp) := by
  intro j hj hsgp
  rw [complete_job_mergeJobs] at hj
  obtain ⟨x, hx, rfl⟩ := List.mem_map.mp hj
  by_cases hc : (x.id == jobId) = true
  · simp only [hc, if_true] at hsgp ⊢
    cases hv : sgp with
    | none =>
      rw [hv] at hsgp
      exact h x hx (by simpa using hsgp)
    | some b =>
      cases b with
      | false =>
        rw [hv] at hsgp
        simp at hsgp
      | true => exact hty hv x hx (by simpa using hc)
  · simp only [hc, if_false, Bool.false_eq_true] at hsgp ⊢
    exact h x hx hsgp

theorem sgp_inv_fail (db : Db) (now jobId branchMergeId : Nat) (reason : String)
    (h : sgp_only_on_gate_jobs db) :
    sgp_only_on_gate_jobs (fail_job db now jobId branchMergeId reason) := by
  intro j hj hsgp
  exact sgp_inv_complete (append_log db now jobId reason) now jobId branchMergeId "failed" none
    (fun hcontra => nomatch hcontra) (sgp_inv_append_log db now jobId reason h) j hj hsgp

/-- C9: every operation preserves the invariant that submit_gate_passed is
true only on submit_gate jobs — creating a merge job forces it to false for
any other type regardless of the request, updating a merge job rejects
setting it true on a non-submit_gate job with a 400 InvalidArgument (given a
status field that passes the earlier validation), and the executor sets it
only when completing a submit_gate job.  The Nodup hypotheses state the
merge_jobs primary-key uniqueness the database schema guarantees. -/
theorem submit_gate_passed_invariant :
    (∀ db now mergeId p db' job q,
        create_merge_job db now mergeId p = .ok (db', job, q) →
        (sgp_only_on_gate_jobs db → sgp_only_on_gate_jobs db')
        ∧ (p.jobType ≠ "submit_gate" → job.submitGatePassed = false))
    ∧ (∀ db now jobId p j0,
        db.mergeJobs.find? (fun r => r.id == jobId) = some j0 →
        (∀ st, p.status = some st → st ∈ MERGE_JOB_STATUSES) →
        p.submitGatePassed = some true → j0.jobType ≠ "submit_gate" →
        update_merge_job db now jobId p
          = .error ⟨400, "Only submit gate jobs can be marked as passing the submit gate."⟩)
    ∧ (∀ db now jobId p db' job,
        update_merge_job db now jobId p = .ok (db', job) →
        (db.mergeJobs.map (fun r => r.id)).Nodup →
        sgp_only_on_gate_jobs db → sgp_only_on_gate_jobs db')
    ∧ (∀ db now jobId,
        (db.mergeJobs.map (fun r => r.id)).Nodup →
        sgp_only_on_gate_jobs db →
        sgp_only_on_gate_jobs (run_merge_job db now jobId).1) := by
  refine ⟨?_, ?_, ?_, ?_⟩
  · intro db now mergeId p db' job q hok
    by_cases hg1 : (!(MERGE_JOB_TYPES.contains p.jobType)) = true
    · simp only [create_merge_job] at hok
      rw [if_pos hg1] at hok
      exact absurd hok (by simp)
    · by_cases hg2 : (!(MERGE_JOB_STATUSES.contains (pyOr p.status "queued"))) = true
      · simp only [create_merge_job] at hok
        rw [if_neg hg1, if_pos hg2] at hok
        exact absurd hok (by simp)
      · cases hfind : db.branchMerges.find? (fun m => m.id == mergeId) with
        | none =>
          simp only [create_merge_job] at hok
          rw [if_neg hg1, if_neg hg2, hfind] at hok
          exact absurd hok (by simp)
        | some m =>
          simp only [create_merge_job] at hok
          rw [if_neg hg1, if_neg hg2, hfind] at hok
          dsimp only at hok
          simp only [Except.ok.injEq, Prod.mk.injEq] at hok
          obtain ⟨rfl, rfl, rfl⟩ := hok
          constructor
          · intro hinv j hj hsgp
            rcases List.mem_append.mp hj with hold | hnew
            · exact hinv j hold hsgp
            · simp only [List.mem_singleton] at hnew
              subst hnew
              by_cases hgt : (p.jobType == "submit_gate") = true
              · simpa using hgt
              · simp [hgt] at hsgp
          · intro hne
            simp [hne]
  · intro db now jobId p j0 hfind hstv hpt hne
    have hg1 : (p.status.isSome && !(MERGE_JOB_STATUSES.contains (p.status.getD ""))) = false := by
      cases hps : p.status with
      | none => simp
      | some st =>
        have hst := hstv st hps
        simp only [MERGE_JOB_STATUSES, List.mem_cons, List.not_mem_nil, or_false] at hst
        rcases hst with rfl | rfl | rfl | rfl | rfl <;> simp [hps, MERGE_JOB_STATUSES]
    simp only [update_merge_job]
    rw [if_neg (by rw [hg1]; simp), if_neg (by simp [hpt]), hfind]
    dsimp only
    rw [if_pos (by simp [hpt, hne])]
  · intro db now jobId p db' job hok hnodup hinv
    by_cases hg1 : (p.status.isSome && !(MERGE_JOB_STATUSES.contains (p.status.getD ""))) = true
    · simp only [update_merge_job] at hok
      rw [if_pos hg1] at hok
      exact absurd hok (by simp)
    · by_cases hg2 : (p.status == none && p.submitGatePassed == none && p.logs == none) = true
      · simp only [update_merge_job] at hok
        rw [if_neg hg1, if_pos hg2] at hok
        exact absurd hok (by simp)
      · cases hfind : db.mergeJobs.find? (fun r => r.id == jobId) with
        | none =>
          simp only [update_merge_job] at hok
          rw [if_neg hg1, if_neg hg2, hfind] at hok
          exact absurd hok (by simp)
        | some j0 =>
          by_cases hg3 : (p.submitGatePassed == some true && j0.jobType != "submit_gate") = true
          · simp only [update_merge_job] at hok
            rw [if_neg hg1, if_neg hg2, hfind] at hok
            dsimp only at hok
            rw [if_pos hg3] at hok
            exact absurd hok (by simp)
          · simp only [update_merge_job] at hok
            rw [if_neg hg1, if_neg hg2, hfind] at hok
            dsimp only at hok
            rw [if_neg hg3] at hok
            simp only [Except.ok.injEq, Prod.mk.injEq] at hok
            obtain ⟨rfl, rfl⟩ := hok
            intro j hj hsgp
            obtain ⟨x, hx, rfl⟩ := List.mem_map.mp hj
            by_cases hc : (x.id == jobId) = true
            · simp only [hc, if_true] at hsgp ⊢
              cases hpv : p.submitGatePassed with
              | none => exact hinv x hx (by simpa [hpv] using hsgp)
              | some b =>
                cases b with
                | false => rw [hpv] at hsgp; simp at hsgp
                | true =>
                  have hj0ty : j0.jobType = "submit_gate" := by
                    by_contra hne2
                    exact hg3 (by simp [hpv, hne2])
                  have hx0 : x = j0 := List.inj_on_of_nodup_map hnodup hx
                    (List.mem_of_find?_eq_some hfind)
                    (by rw [(by simpa using hc : x.id = jobId),
                      (by simpa using List.find?_some hfind : j0.id = jobId)])
                  rw [hx0]
                  exact hj0ty
            · simp only [hc, if_false, Bool.false_eq_true] at hsgp ⊢
              exact hinv x hx hsgp
  · intro db now jobId hnodup hinv
    cases hcas : db.mergeJobs.find? (fun j => j.id == jobId && j.status == "queued") with
    | none =>
      simp only [run_merge_job, hcas]
      exact hinv
    | some j =>
      have hinv1 : sgp_only_on_gate_jobs (cas_queued_to_running db now jobId) :=
        sgp_inv_cas db now jobId hinv
      simp only [run_merge_job, hcas]
      unfold run_merge_job_body
      by_cases ht1 : (j.jobType == "auto_integrate") = true
      · rw [if_pos ht1]
        by_cases hcnt : (unresolved_conflict_count (append_log (cas_queued_to_running db now jobId)
            now jobId "Executing automated integration pipeline") j.branchMergeId != 0) = true
        · rw [if_pos hcnt]
          exact sgp_inv_fail _ now jobId j.branchMergeId _
            (sgp_inv_append_log _ now jobId _ hinv1)
        · rw [if_neg hcnt]
          exact sgp_inv_complete _ now jobId j.branchMergeId "completed" none
            (fun hcontra => nomatch hcontra)
            (sgp_inv_append_log _ now jobId _ (sgp_inv_append_log _ now jobId _ hinv1))
      · rw [if_neg ht1]
        by_cases ht2 : (j.jobType == "submit_gate") = true
        · rw [if_pos ht2]
          refine sgp_inv_complete _ now jobId j.branchMergeId "completed" (some true) ?_
            (sgp_inv_append_log _ now jobId _ hinv1)
          intro _ r hr hrid
          simp only [append_log, List.mem_map] at hr
          obtain ⟨y, hy, rfl⟩ := hr
          simp only [cas_queued_to_running, List.mem_map] at hy
          obtain ⟨x, hx, rfl⟩ := hy
          have e1 : ∀ (z : MergeJobRow), ((if z.id == jobId then
              { z with logs := z.logs ++ logLine now "Running submit gate validation" }
            else z) : MergeJobRow).id = z.id := by
            intro z
            by_cases hb : (z.id == jobId) = true <;> simp [hb]
          have e1t : ∀ (z : MergeJobRow), ((if z.id == jobId then
              { z with logs := z.logs ++ logLine now "Running submit gate validation" }
            else z) : MergeJobRow).jobType = z.jobType := by
            intro z
            by_cases hb : (z.id == jobId) = true <;> simp [hb]
          have e2 : ∀ (z : MergeJobRow), ((if z.id == jobId && z.status == "queued" then
              { z with status := "running", startedAt := some (z.startedAt.getD now) }
            else z) : MergeJobRow).id = z.id := by
            intro z
            by_cases hb : (z.id == jobId && z.status == "queued") = true <;> simp [hb]
          have e2t : ∀ (z : MergeJobRow), ((if z.id == jobId && z.status == "queued" then
              { z with status := "running", startedAt := some (z.startedAt.getD now) }
            else z) : MergeJobRow).jobType = z.jobType := by
            intro z
            by_cases hb : (z.id == jobId && z.status == "queued") = true <;> simp [hb]
          rw [e1, e2] at hrid
          have hjid : j.id = jobId := by
            have hp := List.find?_some hcas
            simp only [Bool.and_eq_true, beq_iff_eq] at hp
            exact hp.1
          have hxj : x = j := List.inj_on_of_nodup_map hnodup hx
            (List.mem_of_find?_eq_some hcas) (by rw [hrid, hjid])
          subst hxj
          rw [e1t, e2t]
          simpa using ht2
        · rw [if_neg ht2]
          exact sgp_inv_complete _ now jobId j.branchMergeId "completed" none
            (fun hcontra => nomatch hcontra)
            (sgp_inv_append_log _ now jobId _ hinv1)

/-- C9 witness: the invariant parts applied at concrete inputs — creating a
non-gate job with submit_gate_passed requested true still stores false, and
the concrete update of a non-gate job to submit_gate_passed=true errors. -/
theorem submit_gate_passed_invariant_witness :
    (∀ db' job q, create_merge_job c4Db 5 2 ⟨"auto_integrate", none, true, none⟩
        = .ok (db', job, q) → job.submitGatePassed = false)
    ∧ update_merge_job c4Db 5 1 ⟨none, some true, none⟩
      = .error ⟨400, "Only submit gate jobs can be marked as passing the submit gate."⟩ := by
  constructor
  · intro db' job q hok
    exact (submit_gate_passed_invariant.1 c4Db 5 2 ⟨"auto_integrate", none, true, none⟩
      db' job q hok).2 (by decide)
  · exact submit_gate_passed_invariant.2.1 c4Db 5 1 ⟨none, some true, none⟩
      ⟨1, 2, "auto_integrate", "queued", false, "", none, none⟩
      (by decide) (by intro st hst; cases hst) (by decide) (by decide)

theorem perm_insertByCreatedAt (it : ChangelistItemRow) (l : List ChangelistItemRow) :
    List.Perm (insertByCreatedAt it l) (it :: l) := by
  induction l with
  | nil => exact List.Perm.refl _
  | cons x xs ih =>
    simp only [insertByCreatedAt]
    by_cases hb : x.createdAt ≤ it.createdAt
    · rw [if_pos hb]
      exact (ih.cons x).trans (List.Perm.swap it x xs)
    · rw [if_neg hb]

theorem perm_sortByCreatedAt (l : List ChangelistItemRow) :
    List.Perm (sortByCreatedAt l) l := by
  induction l with
  | nil => exact List.Perm.refl _
  | cons x xs ih => exact (perm_insertByCreatedAt x (sortByCreatedAt xs)).trans (ih.cons x)

theorem chain_insertByCreatedAt (it : ChangelistItemRow) (l : List ChangelistItemRow)
    (h : List.Chain' (fun a b => a.createdAt ≤ b.createdAt) l) :
    List.Chain' (fun a b => a.createdAt ≤ b.createdAt) (insertByCreatedAt it l) := by
  induction l with
  | nil => simp [insertByCreatedAt]
  | cons x xs ih =>
    simp only [insertByCreatedAt]
    by_cases hb : x.createdAt ≤ it.createdAt
    · rw [if_pos hb]
      rw [List.chain'_cons']
      refine ⟨?_, ih h.tail⟩
      intro b hbmem
      cases xs with
      | nil =>
        simp [insertByCreatedAt] at hbmem
        subst hbmem
        exact hb
      | cons y ys =>
        simp only [insertByCreatedAt] at hbmem
        by_cases hy : y.createdAt ≤ it.createdAt
        · rw [if_pos hy] at hbmem
          simp only [List.head?_cons, Option.mem_def, Option.some.injEq] at hbmem
          subst hbmem
          exact (List.chain'_cons.mp h).1
        · rw [if_neg hy] at hbmem
          simp only [List.head?_cons, Option.mem_def, Option.some.injEq] at hbmem
          subst hbmem
          exact hb
    · rw [if_neg hb]
      rw [List.chain'_cons']
      refine ⟨?_, h⟩
      intro b hbmem
      simp only [List.head?_cons, Option.mem_def, Option.some.injEq] at hbmem
      subst hbmem
      omega

theorem chain_sortByCreatedAt (l : List ChangelistItemRow) :
    List.Chain' (fun a b => a.createdAt ≤ b.createdAt) (sortByCreatedAt l) := by
  induction l with
  | nil => simp [sortByCreatedAt]
  | cons x xs ih => exact chain_insertByCreatedAt x (sortByCreatedAt xs) ih

theorem getLast?_of_chain_max (l : List ChangelistItemRow) (a : ChangelistItemRow)
    (hchain : List.Chain' (fun u v => u.createdAt ≤ v.createdAt) l)
    (hmem : a ∈ l)
    (hmax : ∀ b ∈ l, b = a ∨ b.createdAt < a.createdAt) :
    l.getLast? = some a := by
  induction l with
  | nil => cases hmem
  | cons x xs ih =>
    cases xs with
    | nil =>
      simp only [List.mem_singleton] at hmem
      simp [hmem]
    | cons y ys =>
      have htail : (y :: ys).getLast? = some a := by
        refine ih hchain.tail ?_ ?_
        · rcases List.mem_cons.mp hmem with rfl | hmem2
          · rcases hmax y (by simp) with rfl | hlt
            · exact List.mem_cons_self _ _
            · have hxy : a.createdAt ≤ y.createdAt := (List.chain'_cons.mp hchain).1
              omega
          · exact hmem2
        · intro b hb
          exact hmax b (List.mem_cons_of_mem _ hb)
      rw [List.getLast?_cons_cons]
      exact htail

/-- C10: re-adding an asset version already present in a changelist keeps a
single row for the (changelist, asset_version) key, resets the surviving
row's created_at to now (changing the reported created_at), and — since the
response lists items ascending by created_at — moves it to the last position
when every other item of the changelist is strictly older. -/
theorem upsert_changelist_item_refresh (db : Db)
    (now newId changelistId assetVersionId : Nat)
    (action : String) (targetBranchId : Option Nat) (it0 : ChangelistItemRow)
    (huniq : db.changelistItems.filter (fun it =>
      it.changelistId == changelistId && it.assetVersionId == assetVersionId) = [it0])
    (hfresh : ∀ b ∈ db.changelistItems, b.changelistId = changelistId →
      b.assetVersionId ≠ assetVersionId → b.createdAt < now) :
    (upsert_changelist_item db now newId changelistId assetVersionId action
        targetBranchId).changelistItems.filter (fun it =>
        it.changelistId == changelistId && it.assetVersionId == assetVersionId)
      = [{ it0 with action := action, targetBranchId := targetBranchId, createdAt := now }]
    ∧ (it0.createdAt ≠ now →
      ({ it0 with action := action, targetBranchId := targetBranchId, createdAt := now } : ChangelistItemRow).createdAt ≠ it0.createdAt)
    ∧ (changelist_items_ordered (upsert_changelist_item db now newId changelistId
          assetVersionId action targetBranchId) changelistId).getLast?
      = some { it0 with action := action, targetBranchId := targetBranchId, createdAt := now } := by
  have h01 : it0 ∈ db.changelistItems.filter (fun it =>
      it.changelistId == changelistId && it.assetVersionId == assetVersionId) := by
    rw [huniq]
    simp
  have hkey0 : (it0.changelistId == changelistId && it0.assetVersionId == assetVersionId) = true := by
    have hpf := List.of_mem_filter h01
    exact hpf
  have hmem0 : it0 ∈ db.changelistItems := List.mem_of_mem_filter h01
  have hcl0 : it0.changelistId = changelistId := by
    simp only [Bool.and_eq_true, beq_iff_eq] at hkey0
    exact hkey0.1
  have hkeyuniq : ∀ b ∈ db.changelistItems,
      (b.changelistId == changelistId && b.assetVersionId == assetVersionId) = true → b = it0 := by
    intro b hb hkb
    have : b ∈ db.changelistItems.filter (fun it =>
        it.changelistId == changelistId && it.assetVersionId == assetVersionId) :=
      List.mem_filter_of_mem hb hkb
    rw [huniq] at this
    simpa using this
  have hany : (db.changelistItems.any (fun it =>
      it.changelistId == changelistId && it.assetVersionId == assetVersionId)) = true := by
    rw [List.any_eq_true]
    exact ⟨it0, hmem0, hkey0⟩
  have hup : upsert_changelist_item db now newId changelistId assetVersionId action targetBranchId
      = { db with changelistItems := db.changelistItems.map (fun it =>
          if it.changelistId == changelistId && it.assetVersionId == assetVersionId then
            { it with action := action, targetBranchId := targetBranchId, createdAt := now }
          else it) } := by
    simp only [upsert_changelist_item]
    rw [if_pos hany]
  have hA : (upsert_changelist_item db now newId changelistId assetVersionId action
      targetBranchId).changelistItems.filter (fun it =>
      it.changelistId == changelistId && it.assetVersionId == assetVersionId)
      = [{ it0 with action := action, targetBranchId := targetBranchId, createdAt := now }] := by
    rw [hup]
    refine (filter_map_comm (fun it =>
        it.changelistId == changelistId && it.assetVersionId == assetVersionId)
      (fun it => if it.changelistId == changelistId && it.assetVersionId == assetVersionId then
          { it with action := action, targetBranchId := targetBranchId, createdAt := now }
        else it)
      (fun x => by
        by_cases hk : (x.changelistId == changelistId && x.assetVersionId == assetVersionId) = true <;>
          simp [hk]) db.changelistItems).trans ?_
    rw [huniq]
    simp only [List.map_cons, List.map_nil]
    rw [if_pos hkey0]
  refine ⟨hA, fun h => by simpa using Ne.symm h, ?_⟩
  have hperm := perm_sortByCreatedAt ((upsert_changelist_item db now newId changelistId
      assetVersionId action targetBranchId).changelistItems.filter
      (fun it => it.changelistId == changelistId))
  simp only [changelist_items_ordered]
  refine getLast?_of_chain_max _ _ (chain_sortByCreatedAt _) ?_ ?_
  · rw [hperm.mem_iff, hup]
    refine List.mem_filter_of_mem ?_ (by simp [hcl0])
    have hmm := List.mem_map_of_mem (fun it =>
      if it.changelistId == changelistId && it.assetVersionId == assetVersionId then
        { it with action := action, targetBranchId := targetBranchId, createdAt := now }
      else it) hmem0
    simp only [hkey0, if_true] at hmm
    exact hmm
  · intro b hb
    rw [hperm.mem_iff, hup] at hb
    have hbcl := List.of_mem_filter hb
    have hbmem := List.mem_of_mem_filter hb
    obtain ⟨x, hx, rfl⟩ := List.mem_map.mp hbmem
    by_cases hk : (x.changelistId == changelistId && x.assetVersionId == assetVersionId) = true
    · left
      rw [hkeyuniq x hx hk, if_pos hkey0]
    · right
      simp only [hk, if_false, Bool.false_eq_true] at hbcl ⊢
      simp only [beq_iff_eq] at hbcl
      have hxav : x.assetVersionId ≠ assetVersionId := by
        intro hav
        exact hk (by simp [hbcl, hav])
      simpa using hfresh x hx hbcl hxav

/-- Concrete state for the C10 witness: changelist 1 holds asset versions 7
(created at 3) and 8 (created at 4). -/
def c10Db : Db :=
  { branches := [], branchMerges := [], mergeJobs := [], mergeConflicts := [],
    changelists := [], changelistItems := [⟨5, 1, 7, "edit", none, 3⟩, ⟨6, 1, 8, "add", none, 4⟩],
    assetLocks := [], nextId := 40 }

/-- C10 witness: re-adding asset version 7 at time 9 keeps one row for the
key, stamps created_at = 9, and the refreshed item sorts last. -/
theorem upsert_changelist_item_refresh_witness :
    (upsert_changelist_item c10Db 9 40 1 7 "integrate" (some 2)).changelistItems.filter
        (fun it => it.changelistId == 1 && it.assetVersionId == 7)
      = [⟨5, 1, 7, "integrate", some 2, 9⟩]
    ∧ (changelist_items_ordered (upsert_changelist_item c10Db 9 40 1 7 "integrate" (some 2)) 1).getLast?
      = some ⟨5, 1, 7, "integrate", some 2, 9⟩ := by
  have h := upsert_changelist_item_refresh c10Db 9 40 1 7 "integrate" (some 2)
    ⟨5, 1, 7, "edit", none, 3⟩ (by decide) (by decide)
  exact ⟨h.1, h.2.2⟩

end GameAssetDb
